import Mathlib

/-!
# GpuVramMonitor: a shallow embedding of `src/GpuVramMonitor/main.cpp`

The program samples two performance-counter arrays ("Dedicated Usage" and
"Shared Usage" of `GPU Process Memory(*)`), parses each counter-instance name,
merges the samples in a `std::map` keyed by process id, resolves process and
adapter names, and prints a table ordered by combined usage.

Conventions of the embedding.

* `std::wstring` is a `List Char`.
* The program only builds for Windows (`windows.h`, `pdh.h`, `dxgi1_6.h`); the
  widths are those of the x64 Windows ABI: `unsigned long`, `DWORD`, `int` and
  `long` have 32 bits, `unsigned long long`, `uint64_t`, `size_t` and
  `LONGLONG` have 64 bits.  Unsigned values are naturals reduced modulo
  `2 ^ w` where the source converts or adds.
* A C++ exception is the `Except.error` result; the source has no `catch`, so
  an error that reaches `Update` ends the sampling cycle (and the process).
* Operating-system calls (PDH, DXGI, process queries) are inputs: their results
  are fields of `Provider`.  `malloc` is assumed to succeed.
-/

namespace GpuVramMonitor

/-! ## Strings and numeric conversions of the C++ standard library -/

/-- A `std::wstring`. -/
abbrev WString := List Char

/-- The exceptions `std::stoul`, `std::stoull` and `std::stoi` throw. -/
inductive ConvError where
  | invalid_argument
  | out_of_range
  deriving DecidableEq, Repr

deriving instance DecidableEq for Except

/-- The white space `wcstoul` and `wcstol` skip (the C locale's `iswspace`). -/
def isSpaceChar (c : Char) : Bool :=
  c = ' ' || c = '\t' || c = '\n' || c = '\x0b' || c = '\x0c' || c = '\r'

/-- The value of a digit character in a base up to 16, if it is one: the ASCII
digits and the letters `a` to `f` in either case.  (Digit forms outside ASCII,
which some wide-character runtimes also read, are not digits here.) -/
def digitValue (c : Char) : Option Nat :=
  if '0' ≤ c ∧ c ≤ '9' then some (c.toNat - 48)
  else if 'a' ≤ c ∧ c ≤ 'f' then some (c.toNat - 87)
  else if 'A' ≤ c ∧ c ≤ 'F' then some (c.toNat - 55)
  else none

/-- Whether `c` is a digit of base `base`. -/
def isDigitOf (base : Nat) (c : Char) : Bool :=
  match digitValue c with
  | some v => decide (v < base)
  | none => false

/-- The digit value of `c`, zero when it is none. -/
def digitOf (c : Char) : Nat := (digitValue c).getD 0

/-- The number denoted by a run of digits, most significant first. -/
def digitsValue (base : Nat) (ds : List Char) : Nat :=
  ds.foldl (fun acc c => acc * base + digitOf c) 0

/-- The optional sign of the subject sequence: whether it is `-`, and the rest. -/
def splitSign : WString → Bool × WString
  | '-' :: r => (true, r)
  | '+' :: r => (false, r)
  | s => (false, s)

/-- In base 16 an `0x` or `0X` in front of a hexadecimal digit is skipped. -/
def skipHexPrefix (base : Nat) : WString → WString
  | '0' :: x :: h :: r =>
    if base = 16 ∧ (x = 'x' ∨ x = 'X') ∧ isDigitOf 16 h then h :: r
    else '0' :: x :: h :: r
  | s => s

/-- The subject sequence of `wcstoul`/`wcstol`: the sign and the longest run of
digits after the white space (and the hexadecimal prefix); text after the run is
ignored, as the callers pass no end pointer. -/
def scanNumber (base : Nat) (s : WString) : Bool × List Char :=
  let p := splitSign (s.dropWhile isSpaceChar)
  (p.1, (skipHexPrefix base p.2).takeWhile (isDigitOf base))

/-- Model of an unsigned conversion (`wcstoul`, `wcstoull`) wrapped as
`std::stoul`/`std::stoull` do: no digit is `invalid_argument`, a magnitude of
`2 ^ w` or more is `out_of_range`, and a minus sign negates in the unsigned
type. -/
def stoUnsigned (w base : Nat) (s : WString) : Except ConvError Nat :=
  let p := scanNumber base s
  if p.2 = [] then .error .invalid_argument
  else
    let v := digitsValue base p.2
    if 2 ^ w ≤ v then .error .out_of_range
    else .ok (if p.1 then (2 ^ w - v) % 2 ^ w else v)

/-- Model of `std::stoul(str)`: base 10, `unsigned long` of 32 bits. -/
def stoul (s : WString) : Except ConvError Nat := stoUnsigned 32 10 s

/-- Model of `std::stoull(str, nullptr, 16)`: `unsigned long long` of 64 bits. -/
def stoull (s : WString) (base : Nat) : Except ConvError Nat := stoUnsigned 64 base s

/-- Model of `std::stoi(str)`: base 10, through `wcstol`, result in `int`. -/
def stoi (s : WString) : Except ConvError Int :=
  let p := scanNumber 10 s
  if p.2 = [] then .error .invalid_argument
  else
    let v := digitsValue 10 p.2
    if p.1 then (if 2 ^ 31 < v then .error .out_of_range else .ok (-(v : Int)))
    else (if 2 ^ 31 ≤ v then .error .out_of_range else .ok (v : Int))

/-- The `while (std::getline(stream, token, L'_'))` loop: `acc` holds the
characters of the token being read, last first.  A token ends at each `_`; the
text after the last `_` is a token only when it is not empty, because
`getline` fails when it extracts nothing. -/
def getlineLoop : WString → WString → List WString
  | [], acc => if acc = [] then [] else [acc.reverse]
  | c :: cs, acc =>
    if c = '_' then acc.reverse :: getlineLoop cs [] else getlineLoop cs (c :: acc)

/-- The vector `tokens` that `ParseCounterName` builds from `name`. -/
def tokenize (name : WString) : List WString := getlineLoop name []

/-! ## Data model -/

/-- The `struct ProcessGpuInfo`. -/
structure ProcessGpuInfo where
  pid : Nat
  processName : WString
  luid1 : Nat
  luid2 : Nat
  physicalGpu : Int
  dedicatedBytes : Nat
  sharedBytes : Nat
  gpuName : WString
  deriving DecidableEq, Repr

/-- The default constructor `ProcessGpuInfo()`. -/
def ProcessGpuInfo.fresh : ProcessGpuInfo :=
  { pid := 0, processName := [], luid1 := 0, luid2 := 0, physicalGpu := 0,
    dedicatedBytes := 0, sharedBytes := 0, gpuName := [] }

/-- The literal `L"pid"`. -/
def kwPid : WString := ['p', 'i', 'd']
/-- The literal `L"luid"`. -/
def kwLuid : WString := ['l', 'u', 'i', 'd']
/-- The literal `L"phys"`. -/
def kwPhys : WString := ['p', 'h', 'y', 's']

/-- The `for` loop of `ParseCounterName` over the tokens from index `i` on: the
argument is the suffix `tokens[i..]`, so `i + 1 < tokens.size()` says that a
token follows the head and `i + 2 < tokens.size()` that two do. -/
def scanTokens : List WString → ProcessGpuInfo → Except ConvError ProcessGpuInfo
  | [], info => .ok info
  | [_], info => .ok info
  | [t, a], info =>
    if t = kwPid then
      match stoul a with
      | .error e => .error e
      | .ok v => .ok { info with pid := v }
    else if t = kwPhys then
      match stoi a with
      | .error e => .error e
      | .ok v => .ok { info with physicalGpu := v }
    else scanTokens [a] info
  | t :: a :: b :: rest, info =>
    if t = kwPid then
      match stoul a with
      | .error e => .error e
      | .ok v => scanTokens (b :: rest) { info with pid := v }
    else if t = kwLuid then
      match stoull a 16 with
      | .error e => .error e
      | .ok v1 =>
        match stoull b 16 with
        | .error e => .error e
        | .ok v2 => scanTokens rest { info with luid1 := v1, luid2 := v2 }
    else if t = kwPhys then
      match stoi a with
      | .error e => .error e
      | .ok v => scanTokens (b :: rest) { info with physicalGpu := v }
    else scanTokens (a :: b :: rest) info

/-- The method `ParseCounterName(name, info)`: the record as the loop leaves it
and the returned flag `info.pid != 0`; an exception of a conversion escapes. -/
def ParseCounterName (name : WString) (info : ProcessGpuInfo) :
    Except ConvError (Bool × ProcessGpuInfo) :=
  match scanTokens (tokenize name) info with
  | .error e => .error e
  | .ok info1 => .ok (decide (info1.pid ≠ 0), info1)

/-! ## The provider: what the operating system returns in one cycle -/

/-- The constant `ERROR_SUCCESS` of `winerror.h`. -/
def ERROR_SUCCESS : Nat := 0
/-- The constant `PDH_MORE_DATA` of `PdhMsg.h`. -/
def PDH_MORE_DATA : Nat := 0x800007D2
/-- The constant `DXGI_ADAPTER_FLAG_SOFTWARE` of `dxgi.h`. -/
def DXGI_ADAPTER_FLAG_SOFTWARE : Nat := 2

/-- A `PDH_FMT_COUNTERVALUE_ITEM`: the instance name, and the status and the
`LONGLONG` value of its `FmtValue`. -/
structure CounterItem where
  szName : WString
  CStatus : Nat
  largeValue : Int
  deriving DecidableEq, Repr

/-- The two `PdhGetFormattedCounterArray` calls made for one counter: the status
of the sizing call, the status of the fetching call, and the items fetched. -/
structure CounterArray where
  sizeStatus : Nat
  fetchStatus : Nat
  items : List CounterItem
  deriving DecidableEq, Repr

/-- The fields of a `DXGI_ADAPTER_DESC1` the program reads. -/
structure AdapterDesc where
  Description : WString
  luidHigh : Int
  luidLow : Nat
  Flags : Nat
  DedicatedVideoMemory : Nat
  SharedSystemMemory : Nat
  deriving DecidableEq, Repr

/-- Everything one cycle reads from the operating system.

* `collectStatus`: the result of `PdhCollectQueryData`;
* `dedicated`, `shared`: the two counter arrays;
* `adapters`: `none` when `CreateDXGIFactory1` fails, else the adapters in the
  order `EnumAdapters1` yields them, each `none` when its `GetDesc1` fails;
* `imagePath pid`: `none` when `OpenProcess` or `QueryFullProcessImageNameW`
  fails, else the full path of the image. -/
structure Provider where
  collectStatus : Nat
  dedicated : CounterArray
  shared : CounterArray
  adapters : Option (List (Option AdapterDesc))
  imagePath : Nat → Option WString

/-- Conversion of a `LONGLONG` to `size_t` (64 bits). -/
def toSizeT (v : Int) : Nat := (v % (2 ^ 64 : Int)).toNat

/-- The cast `(uint64_t)luid.HighPart` of a `LONG`. -/
def toUInt64 (v : Int) : Nat := (v % (2 ^ 64 : Int)).toNat

/-! ## The monitor -/

/-- A `std::map<DWORD, ProcessGpuInfo>`: the entries in increasing key order. -/
abbrev ProcessMap := List (Nat × ProcessGpuInfo)

/-- The assignment `m[k] = v` of `std::map`. -/
def mapAssign (k : Nat) (v : ProcessGpuInfo) : ProcessMap → ProcessMap
  | [] => [(k, v)]
  | (k1, v1) :: rest =>
    if k < k1 then (k, v) :: (k1, v1) :: rest
    else if k = k1 then (k, v) :: rest
    else (k1, v1) :: mapAssign k v rest

/-- The lookup `m.find(k)`: the mapped record when there is one. -/
def mapFind (m : ProcessMap) (k : Nat) : Option ProcessGpuInfo :=
  match m with
  | [] => none
  | (k1, v1) :: rest => if k = k1 then some v1 else mapFind rest k

/-- The members of `class GpuVramMonitor` besides the PDH handles. -/
structure Monitor where
  processMap : ProcessMap
  maxDedicatedVRAMBytes : Nat
  maxSharedVRAMBytes : Nat
  primaryGpuName : WString
  deriving DecidableEq, Repr

/-- The state the constructor leaves: the two budget members have the
initialiser `= 0`, the name and the map are default-constructed (empty). -/
def Monitor.init : Monitor :=
  { processMap := [], maxDedicatedVRAMBytes := 0, maxSharedVRAMBytes := 0,
    primaryGpuName := [] }

/-- The literal `L"Unknown"`. -/
def unknownName : WString := ['U', 'n', 'k', 'n', 'o', 'w', 'n']

/-- The literal `L"Unknown GPU"`. -/
def unknownGpuName : WString := unknownName ++ [' ', 'G', 'P', 'U']

/-- The test `!(descr.Flags & DXGI_ADAPTER_FLAG_SOFTWARE) &&
descr.DedicatedVideoMemory > 0` of `FetchPrimaryGpuInfo`. -/
def qualifies (d : AdapterDesc) : Bool :=
  (d.Flags &&& DXGI_ADAPTER_FLAG_SOFTWARE == 0) && decide (0 < d.DedicatedVideoMemory)

/-- One iteration of the `while` loop of `FetchPrimaryGpuInfo`. -/
def fetchStep (mon : Monitor) : Option AdapterDesc → Monitor
  | none => mon
  | some descr =>
    if qualifies descr then
      { mon with maxDedicatedVRAMBytes := descr.DedicatedVideoMemory,
                 maxSharedVRAMBytes := descr.SharedSystemMemory,
                 primaryGpuName := descr.Description }
    else mon

/-- The method `FetchPrimaryGpuInfo()`. -/
def FetchPrimaryGpuInfo (mon : Monitor) : Option (List (Option AdapterDesc)) → Monitor
  | none =>
    { mon with maxDedicatedVRAMBytes := 0, maxSharedVRAMBytes := 0,
               primaryGpuName := unknownName }
  | some adapters => adapters.foldl fetchStep mon

/-- The call `s.find_last_of(set)` from position `i` on: the index of the last
character of `s` that is in `set`, `none` for `npos`; `found` is the last index
seen so far. -/
def findLastOfFrom (set : List Char) : WString → Nat → Option Nat → Option Nat
  | [], _, found => found
  | c :: cs, i, found =>
    findLastOfFrom set cs (i + 1) (if c ∈ set then some i else found)

/-- The method `GetProcessName(pid)`: empty when the process cannot be opened or
queried, else the text after the last `\` or `/` of the image path. -/
def GetProcessName (env : Provider) (pid : Nat) : WString :=
  match env.imagePath pid with
  | none => []
  | some fullPath =>
    match findLastOfFrom ['\\', '/'] fullPath 0 none with
    | none => fullPath
    | some pos => fullPath.drop (pos + 1)

/-- The `std::map` from LUID pair to adapter name.  The program only assigns to
it and looks keys up, so the entries are kept newest first, one per key. -/
abbrev GpuMap := List ((Nat × Nat) × WString)

/-- The assignment `luidToName[key] = name`. -/
def gpuMapAssign (key : Nat × Nat) (name : WString) (m : GpuMap) : GpuMap :=
  (key, name) :: m.filter (fun e => decide (e.1 ≠ key))

/-- The method `EnumerateGpuLUIDs()`. -/
def EnumerateGpuLUIDs : Option (List (Option AdapterDesc)) → GpuMap
  | none => []
  | some adapters =>
    adapters.foldl
      (fun m a =>
        match a with
        | none => m
        | some desc =>
          gpuMapAssign (toUInt64 desc.luidHigh, desc.luidLow % 2 ^ 32) desc.Description m)
      []

/-- The first loop of `Update`, over the items of the dedicated-usage array. -/
def dedicatedLoop : List CounterItem → ProcessMap → Except ConvError ProcessMap
  | [], m => .ok m
  | it :: rest, m =>
    if it.CStatus = ERROR_SUCCESS then
      match ParseCounterName it.szName ProcessGpuInfo.fresh with
      | .error e => .error e
      | .ok (true, info) =>
        dedicatedLoop rest
          (mapAssign info.pid { info with dedicatedBytes := toSizeT it.largeValue } m)
      | .ok (false, _) => dedicatedLoop rest m
    else dedicatedLoop rest m

/-- The second loop of `Update`, over the items of the shared-usage array. -/
def sharedLoop : List CounterItem → ProcessMap → Except ConvError ProcessMap
  | [], m => .ok m
  | it :: rest, m =>
    if it.CStatus = ERROR_SUCCESS then
      match ParseCounterName it.szName ProcessGpuInfo.fresh with
      | .error e => .error e
      | .ok (true, info) =>
        match mapFind m info.pid with
        | some r =>
          sharedLoop rest (mapAssign info.pid { r with sharedBytes := toSizeT it.largeValue } m)
        | none => sharedLoop rest m
      | .ok (false, _) => sharedLoop rest m
    else sharedLoop rest m

/-- The last loop of `Update`: each record gets its process name and adapter
name, and is erased when the process name is empty. -/
def enrichLoop (env : Provider) (gpuMap : GpuMap) : ProcessMap → ProcessMap
  | [] => []
  | (k, v) :: rest =>
    let v1 := { v with
      processName := GetProcessName env k,
      gpuName := (gpuMap.lookup (v.luid1, v.luid2)).getD unknownGpuName }
    if v1.processName = [] then enrichLoop env gpuMap rest
    else (k, v1) :: enrichLoop env gpuMap rest

/-- The method `Update()`: the returned flag and the monitor it leaves, or the
exception that escapes it. -/
def Update (mon : Monitor) (env : Provider) : Except ConvError (Bool × Monitor) :=
  let mon0 := { mon with processMap := [] }
  if env.collectStatus ≠ ERROR_SUCCESS then .ok (false, mon0)
  else if env.dedicated.sizeStatus ≠ PDH_MORE_DATA then .ok (false, mon0)
  else if env.dedicated.fetchStatus ≠ ERROR_SUCCESS then .ok (false, mon0)
  else
    match dedicatedLoop env.dedicated.items [] with
    | .error e => .error e
    | .ok m1 =>
      if env.shared.sizeStatus ≠ PDH_MORE_DATA then .ok (false, { mon with processMap := m1 })
      else if env.shared.fetchStatus ≠ ERROR_SUCCESS then
        .ok (false, { mon with processMap := m1 })
      else
        match sharedLoop env.shared.items m1 with
        | .error e => .error e
        | .ok m2 =>
          .ok (true, { mon with
            processMap := enrichLoop env (EnumerateGpuLUIDs env.adapters) m2 })

/-- The sum `a.dedicatedBytes + a.sharedBytes` in `size_t`. -/
def combined (a : ProcessGpuInfo) : Nat := (a.dedicatedBytes + a.sharedBytes) % 2 ^ 64

/-- The comparator passed to `std::sort`. -/
def comp (a b : ProcessGpuInfo) : Bool := decide (combined a > combined b)

/-- Insertion of `x` into a list ordered by `comp`: after the elements that
`comp` puts before it. -/
def sortInsert (x : ProcessGpuInfo) : List ProcessGpuInfo → List ProcessGpuInfo
  | [] => [x]
  | y :: ys => if comp y x then y :: sortInsert x ys else x :: y :: ys

/-- Model of `std::sort(first, last, comp)`: a comparison sort driven by `comp`.
The standard leaves the order of elements that `comp` does not separate
unspecified; here they keep their order. -/
def stdSort (l : List ProcessGpuInfo) : List ProcessGpuInfo := l.foldr sortInsert []

/-- The vector `processes` of `DisplayResults` once sorted: the records of the
map with a non-zero byte count. -/
def displayRows (mon : Monitor) : List ProcessGpuInfo :=
  stdSort ((mon.processMap.map Prod.snd).filter
    (fun p => decide (p.dedicatedBytes > 0 ∨ p.sharedBytes > 0)))

/-- What `DisplayResults` writes, statement by statement; the numbers are kept as
the integers the program divides and formats. -/
inductive Line where
  /-- The text "No GPU memory usage data available." -/
  | noData
  /-- The line `std::string(120, c)`. -/
  | rule (c : Char)
  /-- The column titles. -/
  | header
  /-- One table row. -/
  | row (p : ProcessGpuInfo)
  /-- The "TOTAL" line, from `totalDedicated` and `totalShared`. -/
  | total (totalDedicated totalShared : Nat)
  /-- The "Primary GPU:" line. -/
  | primaryGpu (name : WString)
  /-- The "Max VRAM Budget:" line. -/
  | budget (maxDedicated maxShared : Nat)
  /-- The "Total VRAM Usage:" line. -/
  | usage (totalDedicated totalShared : Nat)
  deriving DecidableEq, Repr

/-- The method `DisplayResults()`. -/
def DisplayResults (mon : Monitor) : List Line :=
  if mon.processMap = [] then [Line.noData]
  else
    let processes := displayRows mon
    let totalDedicated := processes.foldl (fun t p => (t + p.dedicatedBytes) % 2 ^ 64) 0
    let totalShared := processes.foldl (fun t p => (t + p.sharedBytes) % 2 ^ 64) 0
    [Line.rule '=', Line.header, Line.rule '-']
      ++ processes.map Line.row
      ++ [Line.rule '=', Line.total totalDedicated totalShared, Line.rule '-',
          Line.primaryGpu mon.primaryGpuName,
          Line.budget mon.maxDedicatedVRAMBytes mon.maxSharedVRAMBytes,
          Line.usage totalDedicated totalShared, Line.rule '=']

/-! ## Vocabulary of the statements -/

/-- The adapters whose description was read and that pass the test of
`FetchPrimaryGpuInfo`, in enumeration order. -/
def qualifying (adapters : List (Option AdapterDesc)) : List AdapterDesc :=
  adapters.filterMap (fun a => a.bind (fun d => if qualifies d then some d else none))

/-- The budget members of the monitor: dedicated bytes, shared bytes, name. -/
def Monitor.budget (mon : Monitor) : Nat × Nat × WString :=
  (mon.maxDedicatedVRAMBytes, mon.maxSharedVRAMBytes, mon.primaryGpuName)

/-- The budget an adapter advertises: dedicated bytes, shared bytes, name. -/
def AdapterDesc.budget (d : AdapterDesc) : Nat × Nat × WString :=
  (d.DedicatedVideoMemory, d.SharedSystemMemory, d.Description)

/-- A software adapter, like the "Microsoft Basic Render Driver". -/
def exSoftware : AdapterDesc :=
  { Description := ['W', 'A', 'R', 'P'], luidHigh := 0, luidLow := 1, Flags := 2,
    DedicatedVideoMemory := 0, SharedSystemMemory := 4000000000 }

/-- A hardware adapter with 4,000,000,000 bytes of dedicated memory. -/
def exSmallGpu : AdapterDesc :=
  { Description := ['i', 'G', 'P', 'U'], luidHigh := 0, luidLow := 2, Flags := 0,
    DedicatedVideoMemory := 4000000000, SharedSystemMemory := 16000000000 }

/-- A hardware adapter with 8,000,000,000 bytes of dedicated memory. -/
def exLargeGpu : AdapterDesc :=
  { Description := ['d', 'G', 'P', 'U'], luidHigh := 0, luidLow := 3, Flags := 0,
    DedicatedVideoMemory := 8000000000, SharedSystemMemory := 16000000000 }

/-- The records of the table rows among the lines written. -/
def rowsOf (out : List Line) : List ProcessGpuInfo :=
  out.filterMap (fun l => match l with
    | Line.row p => some p
    | _ => none)

/-- A record of process 5, named `a.exe`, with the given byte counts. -/
def exRecord (dedicated shared : Nat) : ProcessGpuInfo :=
  { ProcessGpuInfo.fresh with
    pid := 5, processName := "a.exe".toList,
    gpuName := unknownGpuName, dedicatedBytes := dedicated, sharedBytes := shared }

/-- A monitor whose map holds the given records under the given keys. -/
def exMonitor (m : ProcessMap) : Monitor := { Monitor.init with processMap := m }

/-- A decimal token: not empty, and only the digits `0` to `9`. -/
def isDecimalToken (d : WString) : Bool :=
  !d.isEmpty && d.all (fun c => decide ('0' ≤ c ∧ c ≤ '9'))

/-- The number a decimal token denotes. -/
def decimalValue (d : WString) : Nat :=
  d.foldl (fun acc c => acc * 10 + (c.toNat - '0'.toNat)) 0

/-- The groups a composite counter name is made of. -/
inductive Group where
  /-- The token `pid` and the token after it. -/
  | pid (d : WString)
  /-- The token `luid` and the two tokens after it. -/
  | luid (h1 h2 : WString)
  /-- The token `phys` and the token after it. -/
  | phys (d : WString)
  /-- A token that is none of the three keywords. -/
  | other (t : WString)
  deriving DecidableEq, Repr

/-- The tokens of a group. -/
def Group.tokens : Group → List WString
  | .pid d => [kwPid, d]
  | .luid h1 h2 => [kwLuid, h1, h2]
  | .phys d => [kwPhys, d]
  | .other t => [t]

/-- Whether a conversion returned a value. -/
def converts {α : Type} : Except ConvError α → Bool
  | .ok _ => true
  | .error _ => false

/-- A group is well formed when the conversions applied to its numeric tokens
return a value (decimal text that fits the type after `pid` and `phys`,
hexadecimal text that fits 64 bits after `luid`), and when an unrelated token
is none of the keywords. -/
def Group.wellFormed : Group → Bool
  | .pid d => converts (stoul d)
  | .luid h1 h2 => converts (stoull h1 16) && converts (stoull h2 16)
  | .phys d => converts (stoi d)
  | .other t => decide (t ≠ kwPid ∧ t ≠ kwLuid ∧ t ≠ kwPhys)

/-- The tokens of a sequence of groups, in order. -/
def groupsTokens : List Group → List WString
  | [] => []
  | g :: gs => g.tokens ++ groupsTokens gs

/-- The token after the last `pid` keyword of a sequence of groups. -/
def lastPid : List Group → Option WString
  | [] => none
  | g :: gs =>
    match lastPid gs with
    | some d => some d
    | none =>
      match g with
      | .pid d => some d
      | _ => none

/-- A token sequence whose head is a keyword with enough tokens after it, one
of which its conversion rejects with the exception `e`: the decimal conversion
for the token after `pid` or `phys`, the hexadecimal conversion for the two
tokens after `luid` (the first is converted first). -/
inductive RejectedHead : List WString → ConvError → Prop where
  | pid (t : WString) (rest : List WString) (e : ConvError) :
      stoul t = .error e → RejectedHead (kwPid :: t :: rest) e
  | phys (t : WString) (rest : List WString) (e : ConvError) :
      stoi t = .error e → RejectedHead (kwPhys :: t :: rest) e
  | luidFirst (t1 t2 : WString) (rest : List WString) (e : ConvError) :
      stoull t1 16 = .error e → RejectedHead (kwLuid :: t1 :: t2 :: rest) e
  | luidSecond (t1 t2 : WString) (rest : List WString) (v : Nat) (e : ConvError) :
      stoull t1 16 = .ok v → stoull t2 16 = .error e →
      RejectedHead (kwLuid :: t1 :: t2 :: rest) e

/-- A counter name with the groups in an unusual order among unrelated tokens. -/
def exName : WString := "engtype_3D_luid_0x00000000_0x0000D3B5_phys_0_pid_1234".toList

/-- The groups of `exName`. -/
def exGroups : List Group :=
  [.other "engtype".toList, .other "3D".toList,
   .luid "0x00000000".toList "0x0000D3B5".toList, .phys "0".toList, .pid "1234".toList]

/-- A counter name whose `pid` group carries the decimal token `0`. -/
def exNameZero : WString := "pid_0_luid_0x00000000_0x0000D3B5_phys_0".toList

/-- The groups of `exNameZero`. -/
def exGroupsZero : List Group :=
  [.pid "0".toList, .luid "0x00000000".toList "0x0000D3B5".toList, .phys "0".toList]

/-- The pid under which the loops of `Update` file a counter item: the item has
the status `ERROR_SUCCESS` and `ParseCounterName` returns success for its name. -/
def samplePid (it : CounterItem) : Option Nat :=
  if it.CStatus = ERROR_SUCCESS then
    match ParseCounterName it.szName ProcessGpuInfo.fresh with
    | .ok (true, info) => some info.pid
    | _ => none
  else none

/-- The pids successfully parsed from a counter array, in item order. -/
def sampledPids (items : List CounterItem) : List Nat := items.filterMap samplePid

/-- The value of the last item of the array that is filed under pid `P`. -/
def lastSample (items : List CounterItem) (P : Nat) : Option Int :=
  ((items.filter (fun it => decide (samplePid it = some P))).getLast?).map
    CounterItem.largeValue

/-- The keys of the map, in order. -/
def mapKeys (m : ProcessMap) : List Nat := m.map Prod.fst

/-- The provider with other items in the dedicated-usage array. -/
def Provider.withDedicatedItems (env : Provider) (items : List CounterItem) : Provider :=
  { env with dedicated := { env.dedicated with items := items } }

/-- The provider with other items in the shared-usage array. -/
def Provider.withSharedItems (env : Provider) (items : List CounterItem) : Provider :=
  { env with shared := { env.shared with items := items } }

/-- A counter array fetched without error. -/
def exArray (items : List CounterItem) : CounterArray :=
  { sizeStatus := PDH_MORE_DATA, fetchStatus := ERROR_SUCCESS, items := items }

/-- A counter item with the status `ERROR_SUCCESS`. -/
def exItem (name : String) (value : Int) : CounterItem :=
  { szName := name.toList, CStatus := ERROR_SUCCESS, largeValue := value }

/-- A provider whose calls all succeed, with the given arrays; the processes
listed in `named` run the image `C:\bin\a.exe`, and no other process can be
queried. -/
def exProvider (named : List Nat) (dedicated shared : List CounterItem) : Provider :=
  { collectStatus := ERROR_SUCCESS,
    dedicated := exArray dedicated,
    shared := exArray shared,
    adapters := some [some exSoftware, some exSmallGpu, some exLargeGpu],
    imagePath := fun pid =>
      if pid ∈ named then some "C:\\bin\\a.exe".toList else none }

/-- The process name `a.exe`. -/
def exProcessName : WString := "a.exe".toList

/-- The counter name of process 5 on the adapter with LUID low part 2. -/
def exNameGpu2 : String := "pid_5_luid_0x00000000_0x00000002_phys_0"

/-- The counter name of process 5 on the adapter with LUID low part 3. -/
def exNameGpu3 : String := "pid_5_luid_0x00000000_0x00000003_phys_1"

/-- The counter name of process 9 on the adapter with LUID low part 3. -/
def exNameOther : String := "pid_9_luid_0x00000000_0x00000003_phys_1"

/-- A counter name without a `pid` token whose groups are well formed. -/
def exNameNoPid : WString := "luid_0x00000000_0x00000003_phys_0".toList

/-- A counter name without a `pid` token whose `luid` group is malformed. -/
def exNameNoPidBad : WString := "luid_zz_0x00000003_phys_0".toList

/-- A counter name in which `luid` is followed by one token only. -/
def exNameShortLuid : WString := "luid_zz".toList

/-- A counter name whose `pid` group is malformed. -/
def exNameBadPid : WString := "luid_0x00000000_0x00000003_pid_abc_phys_0".toList

/-- A counter item with the given name and the status `ERROR_SUCCESS`. -/
def exItemOf (name : WString) (value : Int) : CounterItem :=
  { szName := name, CStatus := ERROR_SUCCESS, largeValue := value }

/-- The name made of the given tokens with `_` between them. -/
def joinTokens : List WString → WString
  | [] => []
  | [t] => t
  | t :: u :: rest => t ++ '_' :: joinTokens (u :: rest)

/-! ## Primary adapter selection -/

theorem fetchStep_budget (mon : Monitor) (a : Option AdapterDesc) :
    (fetchStep mon a).processMap = mon.processMap ∧
    (fetchStep mon a).budget =
      match a.bind (fun d => if qualifies d then some d else none) with
      | none => mon.budget
      | some d => d.budget := by
  cases a with
  | none => simp [fetchStep]
  | some d =>
    by_cases h : qualifies d = true
    · simp [fetchStep, h, Monitor.budget, AdapterDesc.budget]
    · simp [fetchStep, h]

theorem foldl_fetchStep_budget (adapters : List (Option AdapterDesc)) (mon : Monitor) :
    (adapters.foldl fetchStep mon).processMap = mon.processMap ∧
    (adapters.foldl fetchStep mon).budget =
      match (qualifying adapters).getLast? with
      | none => mon.budget
      | some d => d.budget := by
  induction adapters using List.reverseRecOn with
  | nil => simp [qualifying]
  | append_singleton l a ih =>
    rw [List.foldl_append]
    simp only [List.foldl_cons, List.foldl_nil]
    have hs := fetchStep_budget (l.foldl fetchStep mon) a
    refine ⟨hs.1.trans ih.1, ?_⟩
    rw [hs.2]
    unfold qualifying at ih ⊢
    rw [List.filterMap_append]
    cases hq : a.bind (fun d => if qualifies d then some d else none) with
    | none => simpa [List.filterMap_cons, hq] using ih.2
    | some d => simp [List.filterMap_cons, hq]

/-- C1 (as amended): for every enumerated adapter list that contains a
qualifying adapter, the budget stored after `FetchPrimaryGpuInfo` is that of
the LAST adapter in enumeration order that is not software-flagged and has
`DedicatedVideoMemory > 0`: each later qualifying adapter replaces an earlier
one, whatever their memory sizes.  The process map is not touched. -/
theorem FetchPrimaryGpuInfo_last_qualifying (mon : Monitor)
    (adapters : List (Option AdapterDesc)) (d : AdapterDesc)
    (h : (qualifying adapters).getLast? = some d) :
    (FetchPrimaryGpuInfo mon (some adapters)).processMap = mon.processMap ∧
    (FetchPrimaryGpuInfo mon (some adapters)).budget = d.budget := by
  have hfold := foldl_fetchStep_budget adapters mon
  rw [h] at hfold
  exact hfold

/-- C1 (witness): a software adapter, a hardware adapter with 4,000,000,000
dedicated bytes and one with 8,000,000,000 are enumerated in this order; the
last qualifying adapter is the third, and the budget stored is its budget. -/
theorem FetchPrimaryGpuInfo_last_qualifying_witness :
    (qualifying [some exSoftware, some exSmallGpu, some exLargeGpu]).getLast?
      = some exLargeGpu ∧
    (FetchPrimaryGpuInfo Monitor.init
      (some [some exSoftware, some exSmallGpu, some exLargeGpu])).budget
      = exLargeGpu.budget :=
  ⟨by decide,
   (FetchPrimaryGpuInfo_last_qualifying Monitor.init
      [some exSoftware, some exSmallGpu, some exLargeGpu] exLargeGpu (by decide)).2⟩

/-- C1 (counterexample): with two hardware adapters enumerated, the first
qualifying one has 4,000,000,000 dedicated bytes, yet the budget stored after
the scan is that of the later adapter with 8,000,000,000. -/
theorem FetchPrimaryGpuInfo_not_first_match :
    (qualifying [some exSmallGpu, some exLargeGpu]).head? = some exSmallGpu ∧
    (FetchPrimaryGpuInfo Monitor.init (some [some exSmallGpu, some exLargeGpu])).budget
      = exLargeGpu.budget ∧
    exLargeGpu.budget ≠ exSmallGpu.budget := by
  decide

/-- Scenario C of the specification: a software adapter followed by a hardware
adapter with 8,000,000,000 dedicated bytes yields the second adapter's values. -/
theorem FetchPrimaryGpuInfo_scenario_C :
    (FetchPrimaryGpuInfo Monitor.init (some [some exSoftware, some exLargeGpu])).budget
      = exLargeGpu.budget := by
  decide

/-- C8 (the code at the failing inputs): when the enumeration succeeds and no
adapter qualifies (no adapter at all, or only a software adapter), the name the
freshly constructed monitor keeps is the empty string of its default
construction, not "Unknown"; only the branch for a failed factory creation
stores "Unknown". -/
theorem FetchPrimaryGpuInfo_no_adapter_name_empty :
    (FetchPrimaryGpuInfo Monitor.init (some [])).budget = (0, 0, []) ∧
    (FetchPrimaryGpuInfo Monitor.init (some [some exSoftware])).budget = (0, 0, []) ∧
    (FetchPrimaryGpuInfo Monitor.init none).budget = (0, 0, unknownName) ∧
    ([] : WString) ≠ unknownName := by
  decide

/-! ## Ranking and display -/

theorem sortInsert_pairwise (x : ProcessGpuInfo) (l : List ProcessGpuInfo)
    (h : l.Pairwise (fun a b => combined b ≤ combined a)) :
    (sortInsert x l).Pairwise (fun a b => combined b ≤ combined a) ∧
    ∀ z ∈ sortInsert x l, z = x ∨ z ∈ l := by
  induction l with
  | nil => simp [sortInsert]
  | cons y ys ih =>
    have hy := List.pairwise_cons.mp h
    by_cases hc : comp y x = true
    · have hlt : combined x < combined y := by simpa [comp] using hc
      obtain ⟨ih1, ih2⟩ := ih hy.2
      simp only [sortInsert, hc, if_true]
      refine ⟨List.pairwise_cons.mpr ⟨?_, ih1⟩, ?_⟩
      · intro z hz
        rcases ih2 z hz with rfl | hz
        · exact Nat.le_of_lt hlt
        · exact hy.1 z hz
      · intro z hz
        rcases List.mem_cons.mp hz with rfl | hz
        · exact Or.inr (List.mem_cons_self _ _)
        · rcases ih2 z hz with rfl | hz
          · exact Or.inl rfl
          · exact Or.inr (List.mem_cons_of_mem _ hz)
    · have hle : combined y ≤ combined x := by
        have : ¬ combined x < combined y := by simpa [comp] using hc
        omega
      simp only [sortInsert, hc]
      refine ⟨List.pairwise_cons.mpr ⟨?_, h⟩, ?_⟩
      · intro z hz
        rcases List.mem_cons.mp hz with rfl | hz
        · exact hle
        · exact Nat.le_trans (hy.1 z hz) hle
      · intro z hz
        rcases List.mem_cons.mp hz with rfl | hz
        · exact Or.inl rfl
        · exact Or.inr hz

theorem stdSort_pairwise (l : List ProcessGpuInfo) :
    (stdSort l).Pairwise (fun a b => combined b ≤ combined a) ∧
    ∀ z ∈ stdSort l, z ∈ l := by
  induction l with
  | nil => simp [stdSort]
  | cons x xs ih =>
    have h := sortInsert_pairwise x (stdSort xs) ih.1
    refine ⟨h.1, ?_⟩
    intro z hz
    rcases h.2 z hz with rfl | hz
    · exact List.mem_cons_self _ _
    · exact List.mem_cons_of_mem _ (ih.2 z hz)

theorem rowsOf_DisplayResults (mon : Monitor) :
    rowsOf (DisplayResults mon) = if mon.processMap = [] then [] else displayRows mon := by
  by_cases h : mon.processMap = []
  · simp [DisplayResults, h, rowsOf]
  · simp only [DisplayResults, h, if_false, rowsOf, List.filterMap_append,
      List.filterMap_cons, List.filterMap_nil, List.filterMap_map]
    simp [Function.comp_def]

theorem pairwise_adjacent {α : Type} (r : α → α → Prop) (l : List α) (h : l.Pairwise r)
    (i : Nat) (a b : α) (ha : l[i]? = some a) (hb : l[i + 1]? = some b) : r a b := by
  induction l generalizing i with
  | nil => simp at ha
  | cons x xs ih =>
    have hx := List.pairwise_cons.mp h
    cases i with
    | zero =>
      simp only [List.getElem?_cons_zero, Option.some.injEq] at ha
      simp only [List.getElem?_cons_succ] at hb
      subst ha
      exact hx.1 b (List.getElem?_mem hb)
    | succ j =>
      simp only [List.getElem?_cons_succ] at ha hb
      exact ih hx.2 j ha hb

/-- C7: the table rows `DisplayResults` writes are in descending order of the
combined usage the comparator computes, `dedicatedBytes + sharedBytes` in
`size_t`: each row's key is at least the key of the row after it.  Whenever no
record's sum leaves the 64 bits of `size_t` (as with every pair of byte counts
below `2 ^ 63`), this is the order of the exact sums. -/
theorem DisplayResults_rows_descending (mon : Monitor) :
    (∀ (i : Nat) (a b : ProcessGpuInfo),
      (rowsOf (DisplayResults mon))[i]? = some a →
      (rowsOf (DisplayResults mon))[i + 1]? = some b →
      combined b ≤ combined a) ∧
    ((∀ e ∈ mon.processMap, e.2.dedicatedBytes + e.2.sharedBytes < 2 ^ 64) →
      ∀ (i : Nat) (a b : ProcessGpuInfo),
      (rowsOf (DisplayResults mon))[i]? = some a →
      (rowsOf (DisplayResults mon))[i + 1]? = some b →
      b.dedicatedBytes + b.sharedBytes ≤ a.dedicatedBytes + a.sharedBytes) := by
  have hsorted : (rowsOf (DisplayResults mon)).Pairwise
      (fun a b => combined b ≤ combined a) := by
    rw [rowsOf_DisplayResults]
    split
    · exact List.Pairwise.nil
    · exact (stdSort_pairwise _).1
  have hmem : ∀ z ∈ rowsOf (DisplayResults mon), z ∈ mon.processMap.map Prod.snd := by
    intro z hz
    rw [rowsOf_DisplayResults] at hz
    split at hz
    · simp at hz
    · exact (List.mem_filter.mp ((stdSort_pairwise _).2 z hz)).1
  refine ⟨fun i a b ha hb => pairwise_adjacent _ _ hsorted i a b ha hb, ?_⟩
  intro hbound i a b ha hb
  have hkey := pairwise_adjacent _ _ hsorted i a b ha hb
  have hfit : ∀ z ∈ rowsOf (DisplayResults mon),
      combined z = z.dedicatedBytes + z.sharedBytes := by
    intro z hz
    obtain ⟨e, he, rfl⟩ := List.mem_map.mp (hmem z hz)
    exact Nat.mod_eq_of_lt (hbound e he)
  rw [hfit a (List.getElem?_mem ha), hfit b (List.getElem?_mem hb)] at hkey
  exact hkey

/-- C7 (witness): three records with usages 3, 10 and 7 are shown in the order
10, 7, 3, and the theorem applies to that snapshot. -/
theorem DisplayResults_rows_descending_witness :
    (∀ e ∈ (exMonitor [(1, exRecord 1 2), (2, exRecord 4 6), (3, exRecord 7 0)]).processMap,
      e.2.dedicatedBytes + e.2.sharedBytes < 2 ^ 64) ∧
    rowsOf (DisplayResults (exMonitor [(1, exRecord 1 2), (2, exRecord 4 6), (3, exRecord 7 0)]))
      = [exRecord 4 6, exRecord 7 0, exRecord 1 2] ∧
    (∀ (i : Nat) (a b : ProcessGpuInfo),
      (rowsOf (DisplayResults
        (exMonitor [(1, exRecord 1 2), (2, exRecord 4 6), (3, exRecord 7 0)])))[i]? = some a →
      (rowsOf (DisplayResults
        (exMonitor [(1, exRecord 1 2), (2, exRecord 4 6), (3, exRecord 7 0)])))[i + 1]? = some b →
      b.dedicatedBytes + b.sharedBytes ≤ a.dedicatedBytes + a.sharedBytes) :=
  ⟨by decide, by decide,
   (DisplayResults_rows_descending
      (exMonitor [(1, exRecord 1 2), (2, exRecord 4 6), (3, exRecord 7 0)])).2 (by decide)⟩

/-- The empty snapshot, as built from two empty counter arrays, is reported by
the no-data message alone. -/
theorem DisplayResults_empty_map (mon : Monitor) (h : mon.processMap = []) :
    DisplayResults mon = [Line.noData] := by
  simp [DisplayResults, h]

/-- Scenario B of the specification: two empty counter arrays give the empty
snapshot, for which the no-data message is written and nothing else. -/
theorem DisplayResults_scenario_B :
    Update Monitor.init (exProvider [5] [] []) = .ok (true, Monitor.init) ∧
    DisplayResults Monitor.init = [Line.noData] := by
  decide

/-- C10 (the code at the failing input): the cycle in which process 5, whose name
resolves, reports zero dedicated and zero shared bytes builds a snapshot with
one record; `DisplayResults` has no row to show for it, and it writes the
header, the totals and the budget lines of an empty table instead of the
no-data message. -/
theorem DisplayResults_all_zero_renders_table :
    Update Monitor.init (exProvider [5] [exItem exNameGpu3 0] [exItem exNameGpu3 0]) =
      .ok (true, exMonitor [(5, { exRecord 0 0 with
        luid2 := 3, physicalGpu := 1, gpuName := exLargeGpu.Description })]) ∧
    displayRows (exMonitor [(5, { exRecord 0 0 with
        luid2 := 3, physicalGpu := 1, gpuName := exLargeGpu.Description })]) = [] ∧
    rowsOf (DisplayResults (exMonitor [(5, { exRecord 0 0 with
        luid2 := 3, physicalGpu := 1, gpuName := exLargeGpu.Description })])) = [] ∧
    DisplayResults (exMonitor [(5, { exRecord 0 0 with
        luid2 := 3, physicalGpu := 1, gpuName := exLargeGpu.Description })]) =
      [Line.rule '=', Line.header, Line.rule '-', Line.rule '=', Line.total 0 0,
       Line.rule '-', Line.primaryGpu [], Line.budget 0 0, Line.usage 0 0, Line.rule '='] ∧
    DisplayResults (exMonitor [(5, { exRecord 0 0 with
        luid2 := 3, physicalGpu := 1, gpuName := exLargeGpu.Description })]) ≠ [Line.noData] := by
  decide

/-! ## Counter-name parsing -/

theorem decimalDigit_cases (c : Char) (h : '0' ≤ c ∧ c ≤ '9') :
    c ∈ ['0', '1', '2', '3', '4', '5', '6', '7', '8', '9'] := by
  have h1 : 48 ≤ c.toNat := by
    have := h.1
    rw [Char.le_def] at this
    exact this
  have h2 : c.toNat ≤ 57 := by
    have := h.2
    rw [Char.le_def] at this
    exact this
  have hc : c = Char.ofNat c.toNat := (Char.ofNat_toNat c).symm
  generalize c.toNat = n at h1 h2 hc
  subst hc
  interval_cases n <;> decide

theorem decimalDigit_facts (c : Char) (h : '0' ≤ c ∧ c ≤ '9') :
    isSpaceChar c = false ∧ c ≠ '-' ∧ c ≠ '+' ∧ isDigitOf 10 c = true ∧
    digitOf c = c.toNat - '0'.toNat := by
  have hall : ∀ x ∈ ['0', '1', '2', '3', '4', '5', '6', '7', '8', '9'],
      isSpaceChar x = false ∧ x ≠ '-' ∧ x ≠ '+' ∧ isDigitOf 10 x = true ∧
      digitOf x = x.toNat - '0'.toNat := by decide
  exact hall c (decimalDigit_cases c h)

theorem skipHexPrefix_ten (s : WString) : skipHexPrefix 10 s = s := by
  unfold skipHexPrefix
  split <;> simp

theorem digitsValue_eq_foldl (d : WString) (h : ∀ c ∈ d, '0' ≤ c ∧ c ≤ '9') (init : Nat) :
    d.foldl (fun acc c => acc * 10 + digitOf c) init =
    d.foldl (fun acc c => acc * 10 + (c.toNat - '0'.toNat)) init := by
  induction d generalizing init with
  | nil => rfl
  | cons c cs ih =>
    simp only [List.foldl_cons]
    rw [(decimalDigit_facts c (h c (List.mem_cons_self _ _))).2.2.2.2]
    exact ih (fun x hx => h x (List.mem_cons_of_mem _ hx)) _

theorem scanNumber_decimal (d : WString) (hd : isDecimalToken d = true) :
    scanNumber 10 d = (false, d) ∧ d ≠ [] ∧ digitsValue 10 d = decimalValue d := by
  simp only [isDecimalToken, Bool.and_eq_true, Bool.not_eq_true', List.all_eq_true,
    decide_eq_true_eq] at hd
  obtain ⟨hne, hall⟩ := hd
  cases d with
  | nil => simp at hne
  | cons c cs =>
    have hc := decimalDigit_facts c (hall c (List.mem_cons_self _ _))
    have hdrop : (c :: cs).dropWhile isSpaceChar = c :: cs := by
      simp [List.dropWhile_cons, hc.1]
    have hsign : splitSign (c :: cs) = (false, c :: cs) := by
      unfold splitSign
      split
      · rename_i heq
        exact absurd (List.cons.inj heq).1 hc.2.1
      · rename_i heq
        exact absurd (List.cons.inj heq).1 hc.2.2.1
      · rfl
    have htake : (c :: cs).takeWhile (isDigitOf 10) = c :: cs := by
      rw [List.takeWhile_eq_self_iff]
      intro x hx
      exact (decimalDigit_facts x (hall x hx)).2.2.2.1
    refine ⟨?_, by simp, ?_⟩
    · simp only [scanNumber, hdrop, hsign, skipHexPrefix_ten, htake]
    · exact digitsValue_eq_foldl (c :: cs) hall 0

theorem scanNumber_digits (base : Nat) (s : WString) :
    ∀ c ∈ (scanNumber base s).2, c ∈ s ∧ isDigitOf base c = true := by
  intro c hc
  have hsign : ∀ l : WString, ∀ x ∈ (splitSign l).2, x ∈ l := by
    intro l x hx
    unfold splitSign at hx
    split at hx
    · exact List.mem_cons_of_mem _ hx
    · exact List.mem_cons_of_mem _ hx
    · exact hx
  have hskip : ∀ l : WString, ∀ x ∈ skipHexPrefix base l, x ∈ l := by
    intro l x hx
    unfold skipHexPrefix at hx
    split at hx
    · split at hx
      · exact List.mem_cons_of_mem _ (List.mem_cons_of_mem _ hx)
      · exact hx
    · exact hx
  simp only [scanNumber] at hc
  refine ⟨?_, List.mem_takeWhile_imp hc⟩
  have h1 := (List.takeWhile_prefix (isDigitOf base)).subset hc
  exact List.dropWhile_subset _ (hsign _ c (hskip _ c h1))

/-- A token without any decimal digit is rejected by `std::stoul` and `std::stoi`,
and a token without any hexadecimal digit by `std::stoull` in base 16, each with
`invalid_argument`. -/
theorem conversions_reject_no_digit (t : WString) :
    ((∀ c ∈ t, isDigitOf 10 c = false) →
      stoul t = .error .invalid_argument ∧ stoi t = .error .invalid_argument) ∧
    ((∀ c ∈ t, isDigitOf 16 c = false) → stoull t 16 = .error .invalid_argument) := by
  have hnil : ∀ base, (∀ c ∈ t, isDigitOf base c = false) → (scanNumber base t).2 = [] := by
    intro base h
    apply List.eq_nil_iff_forall_not_mem.mpr
    intro c hc
    obtain ⟨h1, h2⟩ := scanNumber_digits base t c hc
    rw [h c h1] at h2
    cases h2
  refine ⟨fun h => ⟨?_, ?_⟩, fun h => ?_⟩
  · simp [stoul, stoUnsigned, hnil 10 h]
  · simp [stoi, hnil 10 h]
  · simp [stoull, stoUnsigned, hnil 16 h]

theorem stoul_decimal (d : WString) (hd : isDecimalToken d = true)
    (hlt : decimalValue d < 2 ^ 32) : stoul d = .ok (decimalValue d) := by
  obtain ⟨hscan, hne, hval⟩ := scanNumber_decimal d hd
  have hlt2 : ¬ (2 ^ 32 ≤ decimalValue d) := Nat.not_le.mpr hlt
  simp only [stoul, stoUnsigned, hscan, hne, if_false, hval, hlt2]
  rfl

theorem getlineLoop_append (t rest acc : WString) (h : '_' ∉ t) :
    getlineLoop (t ++ rest) acc = getlineLoop rest (t.reverse ++ acc) := by
  induction t generalizing acc with
  | nil => rfl
  | cons c cs ih =>
    have hc : c ≠ '_' := fun hh => h (by simp [hh])
    have hcs : '_' ∉ cs := fun hh => h (List.mem_cons_of_mem _ hh)
    have hstep : getlineLoop (c :: cs ++ rest) acc = getlineLoop (cs ++ rest) (c :: acc) := by
      simp [getlineLoop, hc]
    rw [hstep, ih _ hcs]
    simp

/-- Tokenizing undoes joining: tokens that contain no `_`, the last of which is
not empty, are the tokens `ParseCounterName` reads from their joined name. -/
theorem tokenize_joinTokens (toks : List WString) (h : ∀ t ∈ toks, '_' ∉ t)
    (hlast : toks.getLast? ≠ some []) : tokenize (joinTokens toks) = toks := by
  unfold tokenize
  induction toks with
  | nil => rfl
  | cons t rest ih =>
    have ht := h t (List.mem_cons_self _ _)
    cases rest with
    | nil =>
      have hne : t ≠ [] := fun hh => hlast (by simp [hh])
      have h1 := getlineLoop_append t [] [] ht
      rw [List.append_nil] at h1
      simp [joinTokens, h1, getlineLoop, hne]
    | cons u rest2 =>
      have h2 := ih (fun x hx => h x (List.mem_cons_of_mem _ hx))
        (by simpa [List.getLast?_cons_cons] using hlast)
      have h1 := getlineLoop_append t ('_' :: joinTokens (u :: rest2)) [] ht
      simp only [joinTokens, h1, getlineLoop, if_true, List.append_nil, List.reverse_reverse, h2]

theorem converts_eq_true {α : Type} (x : Except ConvError α) (h : converts x = true) :
    ∃ v, x = .ok v := by
  cases x with
  | ok v => exact ⟨v, rfl⟩
  | error e => simp [converts] at h

theorem scanTokens_group (g : Group) (hg : g.wellFormed = true) (rest : List WString)
    (info : ProcessGpuInfo) :
    ∃ info1, scanTokens (g.tokens ++ rest) info = scanTokens rest info1 ∧
      (∀ d, g = .pid d → stoul d = .ok info1.pid) ∧
      ((∀ d, g ≠ .pid d) → info1.pid = info.pid) := by
  cases g with
  | pid d =>
    obtain ⟨v, hv⟩ := converts_eq_true _ hg
    refine ⟨{ info with pid := v }, ?_, ?_, ?_⟩
    · cases rest with
      | nil => simp [Group.tokens, scanTokens, hv]
      | cons b r => simp [Group.tokens, scanTokens, hv]
    · intro d1 hd1
      cases hd1
      exact hv
    · intro h
      exact absurd rfl (h d)
  | luid h1 h2 =>
    simp only [Group.wellFormed, Bool.and_eq_true] at hg
    obtain ⟨v1, hv1⟩ := converts_eq_true _ hg.1
    obtain ⟨v2, hv2⟩ := converts_eq_true _ hg.2
    refine ⟨{ info with luid1 := v1, luid2 := v2 }, ?_, ?_, ?_⟩
    · have hk : kwLuid ≠ kwPid := by decide
      simp [Group.tokens, scanTokens, hv1, hv2, hk]
    · intro d hd
      cases hd
    · intro _
      rfl
  | phys d =>
    obtain ⟨v, hv⟩ := converts_eq_true _ hg
    have hk : kwPhys ≠ kwPid := by decide
    have hk2 : kwPhys ≠ kwLuid := by decide
    refine ⟨{ info with physicalGpu := v }, ?_, ?_, ?_⟩
    · cases rest with
      | nil => simp [Group.tokens, scanTokens, hv, hk]
      | cons b r => simp [Group.tokens, scanTokens, hv, hk, hk2]
    · intro d1 hd1
      cases hd1
    · intro _
      rfl
  | other t =>
    simp only [Group.wellFormed, decide_eq_true_eq] at hg
    obtain ⟨h1, h2, h3⟩ := hg
    refine ⟨info, ?_, ?_, ?_⟩
    · cases rest with
      | nil => simp [Group.tokens, scanTokens]
      | cons a r =>
        cases r with
        | nil => simp [Group.tokens, scanTokens, h1, h3]
        | cons b r2 => simp [Group.tokens, scanTokens, h1, h2, h3]
    · intro d hd
      cases hd
    · intro _
      rfl

theorem scanTokens_groups (gs : List Group) (hwf : ∀ g ∈ gs, g.wellFormed = true)
    (rest : List WString) (info : ProcessGpuInfo) :
    ∃ info1, scanTokens (groupsTokens gs ++ rest) info = scanTokens rest info1 ∧
      (∀ d, lastPid gs = some d → stoul d = .ok info1.pid) ∧
      (lastPid gs = none → info1.pid = info.pid) := by
  induction gs generalizing info with
  | nil => exact ⟨info, rfl, by simp [lastPid], fun _ => rfl⟩
  | cons g gs ih =>
    obtain ⟨info1, h1, hp1, hq1⟩ :=
      scanTokens_group g (hwf g (List.mem_cons_self _ _)) (groupsTokens gs ++ rest) info
    obtain ⟨info2, h2, hp2, hq2⟩ :=
      ih (fun x hx => hwf x (List.mem_cons_of_mem _ hx)) info1
    refine ⟨info2, ?_, ?_, ?_⟩
    · rw [groupsTokens, List.append_assoc, h1, h2]
    · intro d hd
      cases hl : lastPid gs with
      | some d1 =>
        simp only [lastPid, hl, Option.some.injEq] at hd
        subst hd
        exact hp2 d1 hl
      | none =>
        simp only [lastPid, hl] at hd
        cases g with
        | pid d0 =>
          simp only [Option.some.injEq] at hd
          subst hd
          rw [hq2 hl]
          exact hp1 d0 rfl
        | luid a b => simp at hd
        | phys a => simp at hd
        | other a => simp at hd
    · intro hn
      cases hl : lastPid gs with
      | some d1 => simp [lastPid, hl] at hn
      | none =>
        simp only [lastPid, hl] at hn
        rw [hq2 hl]
        apply hq1
        intro d hd
        subst hd
        simp at hn

/-- C2 (as amended): for every counter name whose tokens form a sequence of well
formed groups (`pid`, `luid` and `phys` groups in any order, among any number of
unrelated tokens), if the token `d` after the last `pid` keyword is a decimal
token whose value is not zero and fits the 32 bits of `unsigned long`, then
`ParseCounterName` on a fresh record returns success and leaves `pid` equal to
the value of `d`. -/
theorem ParseCounterName_extracts_pid (name : WString) (gs : List Group) (d : WString)
    (htok : tokenize name = groupsTokens gs)
    (hwf : ∀ g ∈ gs, g.wellFormed = true)
    (hlast : lastPid gs = some d)
    (hd : isDecimalToken d = true)
    (hpos : 0 < decimalValue d)
    (hlt : decimalValue d < 2 ^ 32) :
    ∃ info, ParseCounterName name ProcessGpuInfo.fresh = .ok (true, info) ∧
      info.pid = decimalValue d := by
  obtain ⟨info1, h1, hp, _⟩ := scanTokens_groups gs hwf [] ProcessGpuInfo.fresh
  have hpid : info1.pid = decimalValue d := by
    have h2 := hp d hlast
    rw [stoul_decimal d hd hlt] at h2
    exact (Except.ok.inj h2).symm
  refine ⟨info1, ?_, hpid⟩
  rw [List.append_nil] at h1
  have h3 : scanTokens (tokenize name) ProcessGpuInfo.fresh = .ok info1 := by
    rw [htok, h1]
    rfl
  have hne : info1.pid ≠ 0 := by omega
  simp [ParseCounterName, h3, hne]

/-- C2 (witness): the name `engtype_3D_luid_0x00000000_0x0000D3B5_phys_0_pid_1234`
meets the hypotheses, and its pid is 1234. -/
theorem ParseCounterName_extracts_pid_witness :
    tokenize exName = groupsTokens exGroups ∧
    (∀ g ∈ exGroups, g.wellFormed = true) ∧
    lastPid exGroups = some "1234".toList ∧
    decimalValue "1234".toList = 1234 ∧
    ∃ info, ParseCounterName exName ProcessGpuInfo.fresh = .ok (true, info) ∧
      info.pid = decimalValue "1234".toList :=
  ⟨by decide, by decide, by decide, by decide,
   ParseCounterName_extracts_pid exName exGroups "1234".toList
     (by decide) (by decide) (by decide) (by decide) (by decide) (by decide)⟩

/-- C2 (counterexample): `pid_0_luid_0x00000000_0x0000D3B5_phys_0` is a valid
composite name whose `pid` token is followed by the decimal token `0`, and
`ParseCounterName` on a fresh record reports failure for it. -/
theorem ParseCounterName_pid_zero_fails :
    tokenize exNameZero = groupsTokens exGroupsZero ∧
    (∀ g ∈ exGroupsZero, g.wellFormed = true) ∧
    lastPid exGroupsZero = some "0".toList ∧
    isDecimalToken "0".toList = true ∧
    ParseCounterName exNameZero ProcessGpuInfo.fresh =
      .ok (false, { ProcessGpuInfo.fresh with luid1 := 0, luid2 := 0xD3B5 }) :=
  ⟨by decide, by decide, by decide, by decide, rfl⟩

theorem scanTokens_rejected (toks : List WString) (e : ConvError) (info : ProcessGpuInfo)
    (h : RejectedHead toks e) : scanTokens toks info = .error e := by
  have hk1 : kwPhys ≠ kwPid := by decide
  have hk2 : kwPhys ≠ kwLuid := by decide
  have hk3 : kwLuid ≠ kwPid := by decide
  cases h with
  | pid t rest e hc =>
    cases rest with
    | nil => simp [scanTokens, hc]
    | cons b r => simp [scanTokens, hc]
  | phys t rest e hc =>
    cases rest with
    | nil => simp [scanTokens, hc, hk1]
    | cons b r => simp [scanTokens, hc, hk1, hk2]
  | luidFirst t1 t2 rest e hc => simp [scanTokens, hc, hk3]
  | luidSecond t1 t2 rest v e hv hc => simp [scanTokens, hv, hc, hk3]

theorem ParseCounterName_rejected (name : WString) (gs : List Group) (bad : List WString)
    (e : ConvError)
    (htok : tokenize name = groupsTokens gs ++ bad)
    (hwf : ∀ g ∈ gs, g.wellFormed = true)
    (hbad : RejectedHead bad e) :
    ParseCounterName name ProcessGpuInfo.fresh = .error e := by
  obtain ⟨info1, h1, _, _⟩ := scanTokens_groups gs hwf bad ProcessGpuInfo.fresh
  have h2 : scanTokens (tokenize name) ProcessGpuInfo.fresh = .error e := by
    rw [htok, h1]
    exact scanTokens_rejected bad e info1 hbad
  simp [ParseCounterName, h2]

theorem scanTokens_no_pid (n : Nat) :
    ∀ (toks : List WString) (info : ProcessGpuInfo), toks.length ≤ n → kwPid ∉ toks →
      (∃ e, scanTokens toks info = .error e) ∨
      ∃ info1, scanTokens toks info = .ok info1 ∧ info1.pid = info.pid := by
  induction n with
  | zero =>
    intro toks info hlen _
    have : toks = [] := List.length_eq_zero.mp (Nat.le_zero.mp hlen)
    subst this
    exact Or.inr ⟨info, rfl, rfl⟩
  | succ n ih =>
    intro toks info hlen hno
    match toks, hlen, hno with
    | [], _, _ => exact Or.inr ⟨info, rfl, rfl⟩
    | [t], _, _ => exact Or.inr ⟨info, rfl, rfl⟩
    | [t, a], _, hno =>
      have ht : t ≠ kwPid := fun h => hno (by simp [h])
      by_cases hp : t = kwPhys
      · subst hp
        cases hc : stoi a with
        | error e => exact Or.inl ⟨e, by simp [scanTokens, ht, hc]⟩
        | ok v =>
          refine Or.inr ⟨{ info with physicalGpu := v }, ?_, rfl⟩
          simp [scanTokens, ht, hc]
      · exact Or.inr ⟨info, by simp [scanTokens, ht, hp], rfl⟩
    | t :: a :: b :: rest, hlen, hno =>
      have ht : t ≠ kwPid := fun h => hno (by simp [h])
      have hno1 : kwPid ∉ a :: b :: rest := fun h => hno (List.mem_cons_of_mem _ h)
      have hno2 : kwPid ∉ b :: rest := fun h => hno1 (List.mem_cons_of_mem _ h)
      have hno3 : kwPid ∉ rest := fun h => hno2 (List.mem_cons_of_mem _ h)
      have hl1 : (a :: b :: rest).length ≤ n := by
        simp only [List.length_cons] at hlen ⊢
        omega
      have hl2 : (b :: rest).length ≤ n := by
        simp only [List.length_cons] at hlen ⊢
        omega
      have hl3 : rest.length ≤ n := by
        simp only [List.length_cons] at hlen
        omega
      by_cases hl : t = kwLuid
      · subst hl
        cases hc1 : stoull a 16 with
        | error e => exact Or.inl ⟨e, by simp [scanTokens, ht, hc1]⟩
        | ok v1 =>
          cases hc2 : stoull b 16 with
          | error e => exact Or.inl ⟨e, by simp [scanTokens, ht, hc1, hc2]⟩
          | ok v2 =>
            have hs : scanTokens (kwLuid :: a :: b :: rest) info =
                scanTokens rest { info with luid1 := v1, luid2 := v2 } := by
              simp [scanTokens, ht, hc1, hc2]
            rw [hs]
            exact ih rest _ hl3 hno3
      · by_cases hp : t = kwPhys
        · subst hp
          cases hc : stoi a with
          | error e => exact Or.inl ⟨e, by simp [scanTokens, ht, hl, hc]⟩
          | ok v =>
            have hs : scanTokens (kwPhys :: a :: b :: rest) info =
                scanTokens (b :: rest) { info with physicalGpu := v } := by
              simp [scanTokens, ht, hl, hc]
            rw [hs]
            exact ih (b :: rest) _ hl2 hno2
        · have hs : scanTokens (t :: a :: b :: rest) info =
              scanTokens (a :: b :: rest) info := by
            simp [scanTokens, ht, hl, hp]
          rw [hs]
          exact ih (a :: b :: rest) _ hl1 hno1

theorem ParseCounterName_no_pid (name : WString) (h : kwPid ∉ tokenize name) :
    (∃ e, ParseCounterName name ProcessGpuInfo.fresh = .error e) ∨
    ∃ info, ParseCounterName name ProcessGpuInfo.fresh = .ok (false, info) ∧ info.pid = 0 := by
  rcases scanTokens_no_pid _ (tokenize name) ProcessGpuInfo.fresh (Nat.le_refl _) h with
    ⟨e, he⟩ | ⟨info1, h1, hpid⟩
  · exact Or.inl ⟨e, by simp [ParseCounterName, he]⟩
  · have hz : info1.pid = 0 := hpid
    exact Or.inr ⟨info1, by simp [ParseCounterName, h1, hz], hz⟩

/-! ## The process map -/

theorem mapFind_mapAssign (k : Nat) (v : ProcessGpuInfo) (m : ProcessMap) (x : Nat) :
    mapFind (mapAssign k v m) x = if x = k then some v else mapFind m x := by
  induction m with
  | nil => simp [mapAssign, mapFind]
  | cons e rest ih =>
    obtain ⟨k1, v1⟩ := e
    by_cases h1 : k < k1
    · simp [mapAssign, h1, mapFind]
    · by_cases h2 : k = k1
      · subst h2
        by_cases hx : x = k
        · simp [mapAssign, mapFind, hx]
        · simp [mapAssign, mapFind, hx]
      · by_cases hx : x = k1
        · have hxk : ¬ k1 = k := fun h => h2 h.symm
          subst hx
          simp [mapAssign, h1, h2, mapFind, hxk]
        · simp [mapAssign, h1, h2, mapFind, hx, ih]

theorem mem_mapKeys_mapAssign (k : Nat) (v : ProcessGpuInfo) (m : ProcessMap) (x : Nat) :
    x ∈ mapKeys (mapAssign k v m) ↔ x = k ∨ x ∈ mapKeys m := by
  induction m with
  | nil => simp [mapAssign, mapKeys]
  | cons e rest ih =>
    obtain ⟨k1, v1⟩ := e
    by_cases h1 : k < k1
    · simp [mapAssign, h1, mapKeys]
    · by_cases h2 : k = k1
      · subst h2
        simp [mapAssign, mapKeys]
      · simp only [mapKeys] at ih
        simp only [mapAssign, h1, h2, if_false, mapKeys, List.map_cons, List.mem_cons, ih]
        tauto

theorem mapKeys_mapAssign_sorted (k : Nat) (v : ProcessGpuInfo) (m : ProcessMap)
    (h : (mapKeys m).Pairwise (fun a b => a < b)) :
    (mapKeys (mapAssign k v m)).Pairwise (fun a b => a < b) := by
  induction m with
  | nil => simp [mapAssign, mapKeys]
  | cons e rest ih =>
    obtain ⟨k1, v1⟩ := e
    have hc : (∀ y ∈ mapKeys rest, k1 < y) ∧ (mapKeys rest).Pairwise (fun a b => a < b) := by
      simpa [mapKeys] using h
    by_cases h1 : k < k1
    · have : mapKeys (mapAssign k v ((k1, v1) :: rest)) = k :: mapKeys ((k1, v1) :: rest) := by
        simp [mapAssign, h1, mapKeys]
      rw [this]
      refine List.pairwise_cons.mpr ⟨?_, h⟩
      intro y hy
      have hy2 : y = k1 ∨ y ∈ mapKeys rest := by simpa [mapKeys] using hy
      rcases hy2 with rfl | hy2
      · exact h1
      · exact Nat.lt_trans h1 (hc.1 y hy2)
    · by_cases h2 : k = k1
      · subst h2
        have : mapKeys (mapAssign k v ((k, v1) :: rest)) = k :: mapKeys rest := by
          simp [mapAssign, mapKeys]
        rw [this]
        exact List.pairwise_cons.mpr hc
      · have : mapKeys (mapAssign k v ((k1, v1) :: rest)) =
            k1 :: mapKeys (mapAssign k v rest) := by
          simp [mapAssign, h1, h2, mapKeys]
        rw [this]
        refine List.pairwise_cons.mpr ⟨?_, ih hc.2⟩
        intro y hy
        rcases (mem_mapKeys_mapAssign k v rest y).mp hy with rfl | hy2
        · omega
        · exact hc.1 y hy2

theorem mapFind_eq_none_iff (m : ProcessMap) (x : Nat) :
    mapFind m x = none ↔ x ∉ mapKeys m := by
  induction m with
  | nil => simp [mapFind, mapKeys]
  | cons e rest ih =>
    obtain ⟨k1, v1⟩ := e
    by_cases hx : x = k1
    · simp [mapFind, mapKeys, hx]
    · simp only [mapKeys] at ih
      simp [mapFind, mapKeys, hx, ih]

/-! ## The loops of `Update` -/

theorem dedicatedLoop_cons_cases (it : CounterItem) (rest : List CounterItem)
    (m : ProcessMap) :
    (∃ e, it.CStatus = ERROR_SUCCESS ∧
        ParseCounterName it.szName ProcessGpuInfo.fresh = .error e ∧
        dedicatedLoop (it :: rest) m = .error e) ∨
    (samplePid it = none ∧ dedicatedLoop (it :: rest) m = dedicatedLoop rest m) ∨
    (∃ info : ProcessGpuInfo, samplePid it = some info.pid ∧
        dedicatedLoop (it :: rest) m =
          dedicatedLoop rest
            (mapAssign info.pid { info with dedicatedBytes := toSizeT it.largeValue } m)) := by
  by_cases hs : it.CStatus = ERROR_SUCCESS
  · cases hp : ParseCounterName it.szName ProcessGpuInfo.fresh with
    | error e => exact Or.inl ⟨e, hs, rfl, by simp [dedicatedLoop, hs, hp]⟩
    | ok p =>
      obtain ⟨b, info⟩ := p
      cases b with
      | false => exact Or.inr (Or.inl ⟨by simp [samplePid, hs, hp], by simp [dedicatedLoop, hs, hp]⟩)
      | true =>
        exact Or.inr (Or.inr ⟨info, by simp [samplePid, hs, hp], by simp [dedicatedLoop, hs, hp]⟩)
  · exact Or.inr (Or.inl ⟨by simp [samplePid, hs], by simp [dedicatedLoop, hs]⟩)

theorem sharedLoop_cons_cases (it : CounterItem) (rest : List CounterItem)
    (m : ProcessMap) :
    (∃ e, it.CStatus = ERROR_SUCCESS ∧
        ParseCounterName it.szName ProcessGpuInfo.fresh = .error e ∧
        sharedLoop (it :: rest) m = .error e) ∨
    (samplePid it = none ∧ sharedLoop (it :: rest) m = sharedLoop rest m) ∨
    (∃ P, samplePid it = some P ∧ mapFind m P = none ∧
        sharedLoop (it :: rest) m = sharedLoop rest m) ∨
    (∃ P r, samplePid it = some P ∧ mapFind m P = some r ∧
        sharedLoop (it :: rest) m =
          sharedLoop rest (mapAssign P { r with sharedBytes := toSizeT it.largeValue } m)) := by
  by_cases hs : it.CStatus = ERROR_SUCCESS
  · cases hp : ParseCounterName it.szName ProcessGpuInfo.fresh with
    | error e => exact Or.inl ⟨e, hs, rfl, by simp [sharedLoop, hs, hp]⟩
    | ok p =>
      obtain ⟨b, info⟩ := p
      cases b with
      | false => exact Or.inr (Or.inl ⟨by simp [samplePid, hs, hp], by simp [sharedLoop, hs, hp]⟩)
      | true =>
        cases hf : mapFind m info.pid with
        | none =>
          exact Or.inr (Or.inr (Or.inl
            ⟨info.pid, by simp [samplePid, hs, hp], hf, by simp [sharedLoop, hs, hp, hf]⟩))
        | some r =>
          exact Or.inr (Or.inr (Or.inr
            ⟨info.pid, r, by simp [samplePid, hs, hp], hf, by simp [sharedLoop, hs, hp, hf]⟩))
  · exact Or.inr (Or.inl ⟨by simp [samplePid, hs], by simp [sharedLoop, hs]⟩)

theorem dedicatedLoop_append (pre l : List CounterItem) (m : ProcessMap) :
    dedicatedLoop (pre ++ l) m =
      match dedicatedLoop pre m with
      | .error e => .error e
      | .ok m1 => dedicatedLoop l m1 := by
  induction pre generalizing m with
  | nil => rfl
  | cons it rest ih =>
    simp only [List.cons_append, dedicatedLoop]
    split
    · split <;> simp [ih]
    · exact ih m

theorem sharedLoop_append (pre l : List CounterItem) (m : ProcessMap) :
    sharedLoop (pre ++ l) m =
      match sharedLoop pre m with
      | .error e => .error e
      | .ok m1 => sharedLoop l m1 := by
  induction pre generalizing m with
  | nil => rfl
  | cons it rest ih =>
    simp only [List.cons_append, sharedLoop]
    split
    · split
      · rfl
      · split <;> simp [ih]
      · exact ih m
    · exact ih m

theorem sampledPids_cons (it : CounterItem) (rest : List CounterItem) :
    sampledPids (it :: rest) =
      match samplePid it with
      | some P => P :: sampledPids rest
      | none => sampledPids rest := by
  cases h : samplePid it <;> simp [sampledPids, List.filterMap_cons, h]

theorem lastSample_cons (it : CounterItem) (rest : List CounterItem) (P : Nat) :
    lastSample (it :: rest) P =
      match lastSample rest P with
      | some d => some d
      | none => if samplePid it = some P then some it.largeValue else none := by
  unfold lastSample
  by_cases h : samplePid it = some P
  · rw [List.filter_cons_of_pos (by simpa using h), List.getLast?_cons]
    cases (List.filter (fun it => decide (samplePid it = some P)) rest).getLast? <;> simp [h]
  · rw [List.filter_cons_of_neg (by simpa using h)]
    cases (List.filter (fun it => decide (samplePid it = some P)) rest).getLast? <;> simp [h]

theorem dedicatedLoop_keys (items : List CounterItem) (m m1 : ProcessMap)
    (h : dedicatedLoop items m = .ok m1) :
    (∀ x, x ∈ mapKeys m1 ↔ x ∈ mapKeys m ∨ x ∈ sampledPids items) ∧
    ((mapKeys m).Pairwise (fun a b => a < b) → (mapKeys m1).Pairwise (fun a b => a < b)) := by
  induction items generalizing m with
  | nil =>
    simp only [dedicatedLoop, Except.ok.injEq] at h
    subst h
    simp [sampledPids]
  | cons it rest ih =>
    rcases dedicatedLoop_cons_cases it rest m with ⟨e, _, _, he⟩ | ⟨hn, hstep⟩ | ⟨info, hsome, hstep⟩
    · rw [he] at h
      cases h
    · rw [hstep] at h
      rw [sampledPids_cons, hn]
      exact ih m h
    · rw [hstep] at h
      obtain ⟨ih1, ih2⟩ := ih _ h
      rw [sampledPids_cons, hsome]
      refine ⟨?_, fun hs => ih2 (mapKeys_mapAssign_sorted _ _ _ hs)⟩
      intro x
      rw [ih1 x, mem_mapKeys_mapAssign]
      simp only [List.mem_cons]
      tauto

theorem dedicatedLoop_find (items : List CounterItem) (m m1 : ProcessMap) (P : Nat)
    (h : dedicatedLoop items m = .ok m1) :
    (∀ d, lastSample items P = some d →
      ∃ r, mapFind m1 P = some r ∧ r.dedicatedBytes = toSizeT d) ∧
    (lastSample items P = none → mapFind m1 P = mapFind m P) := by
  induction items generalizing m with
  | nil =>
    simp only [dedicatedLoop, Except.ok.injEq] at h
    subst h
    simp [lastSample]
  | cons it rest ih =>
    rw [lastSample_cons]
    rcases dedicatedLoop_cons_cases it rest m with ⟨e, _, _, he⟩ | ⟨hn, hstep⟩ | ⟨info, hsome, hstep⟩
    · rw [he] at h
      cases h
    · rw [hstep] at h
      obtain ⟨ih1, ih2⟩ := ih m h
      cases hl : lastSample rest P with
      | some d0 => simpa [hl] using ih1 d0 hl
      | none => simpa [hl, hn] using ih2 hl
    · rw [hstep] at h
      obtain ⟨ih1, ih2⟩ := ih _ h
      cases hl : lastSample rest P with
      | some d0 =>
        refine ⟨?_, by simp⟩
        intro d hd
        simp only [Option.some.injEq] at hd
        subst hd
        exact ih1 d0 hl
      | none =>
        have hfind := ih2 hl
        rw [mapFind_mapAssign] at hfind
        by_cases hP : info.pid = P
        · have hPs : P = info.pid := hP.symm
          simp only [hsome, hP, if_true, Option.some.injEq]
          refine ⟨?_, by simp⟩
          intro d hd
          subst hd
          rw [if_pos hPs] at hfind
          exact ⟨_, hfind, rfl⟩
        · have hPs : ¬ P = info.pid := fun hh => hP hh.symm
          have hne : ¬ samplePid it = some P := by
            rw [hsome]
            simpa using hP
          rw [if_neg hPs] at hfind
          simp only [hne, if_false]
          exact ⟨by simp, fun _ => hfind⟩

theorem sharedLoop_find (items : List CounterItem) (m m1 : ProcessMap) (P : Nat)
    (h : sharedLoop items m = .ok m1) :
    (mapFind m P = none → mapFind m1 P = none) ∧
    (∀ r, mapFind m P = some r →
      ∃ r1, mapFind m1 P = some r1 ∧ r1.dedicatedBytes = r.dedicatedBytes ∧
        r1.sharedBytes =
          match lastSample items P with
          | some v => toSizeT v
          | none => r.sharedBytes) := by
  induction items generalizing m with
  | nil =>
    simp only [sharedLoop, Except.ok.injEq] at h
    subst h
    exact ⟨fun hn => hn, fun r hr => ⟨r, hr, rfl, by simp [lastSample]⟩⟩
  | cons it rest ih =>
    rw [lastSample_cons]
    rcases sharedLoop_cons_cases it rest m with
      ⟨e, _, _, he⟩ | ⟨hn, hstep⟩ | ⟨Q, hsome, hnone, hstep⟩ | ⟨Q, rq, hsome, hfq, hstep⟩
    · rw [he] at h
      cases h
    · rw [hstep] at h
      obtain ⟨ih1, ih2⟩ := ih m h
      refine ⟨ih1, ?_⟩
      intro r hr
      obtain ⟨r1, hr1, hd1, hs1⟩ := ih2 r hr
      refine ⟨r1, hr1, hd1, ?_⟩
      rw [hs1]
      cases hl : lastSample rest P <;> simp [hn]
    · rw [hstep] at h
      obtain ⟨ih1, ih2⟩ := ih m h
      refine ⟨ih1, ?_⟩
      intro r hr
      obtain ⟨r1, hr1, hd1, hs1⟩ := ih2 r hr
      refine ⟨r1, hr1, hd1, ?_⟩
      rw [hs1]
      have hQ : ¬ Q = P := by
        intro hQP
        rw [hQP, hr] at hnone
        cases hnone
      cases hl : lastSample rest P <;> simp [hsome, hQ]
    · rw [hstep] at h
      obtain ⟨ih1, ih2⟩ := ih _ h
      by_cases hQ : P = Q
      · subst hQ
        refine ⟨fun hn => absurd (hn.symm.trans hfq) (by simp), ?_⟩
        intro r hr
        rw [hfq] at hr
        cases hr
        obtain ⟨r1, hr1, hd1, hs1⟩ := ih2 _ (by rw [mapFind_mapAssign, if_pos rfl])
        refine ⟨r1, hr1, hd1, ?_⟩
        rw [hs1]
        cases hl : lastSample rest P <;> simp [hsome]
      · have hfind : mapFind (mapAssign Q { rq with sharedBytes := toSizeT it.largeValue } m) P
            = mapFind m P := by
          rw [mapFind_mapAssign, if_neg hQ]
        have hQ2 : ¬ Q = P := fun hh => hQ hh.symm
        refine ⟨fun hn => ih1 (hfind.trans hn), ?_⟩
        intro r hr
        obtain ⟨r1, hr1, hd1, hs1⟩ := ih2 r (hfind.trans hr)
        refine ⟨r1, hr1, hd1, ?_⟩
        rw [hs1]
        cases hl : lastSample rest P <;> simp [hsome, hQ2]

theorem sharedLoop_sorted (items : List CounterItem) (m m1 : ProcessMap)
    (h : sharedLoop items m = .ok m1) (hs : (mapKeys m).Pairwise (fun a b => a < b)) :
    (mapKeys m1).Pairwise (fun a b => a < b) := by
  induction items generalizing m with
  | nil =>
    simp only [sharedLoop, Except.ok.injEq] at h
    subst h
    exact hs
  | cons it rest ih =>
    rcases sharedLoop_cons_cases it rest m with
      ⟨e, _, _, he⟩ | ⟨_, hstep⟩ | ⟨Q, _, _, hstep⟩ | ⟨Q, rq, _, _, hstep⟩
    · rw [he] at h
      cases h
    · rw [hstep] at h
      exact ih m h hs
    · rw [hstep] at h
      exact ih m h hs
    · rw [hstep] at h
      exact ih _ h (mapKeys_mapAssign_sorted _ _ _ hs)

theorem sharedLoop_keys (items : List CounterItem) (m m1 : ProcessMap)
    (h : sharedLoop items m = .ok m1) (x : Nat) :
    x ∈ mapKeys m1 ↔ x ∈ mapKeys m := by
  obtain ⟨h1, h2⟩ := sharedLoop_find items m m1 x h
  constructor
  · intro hx
    by_contra hn
    exact (mapFind_eq_none_iff m1 x).mp (h1 ((mapFind_eq_none_iff m x).mpr hn)) hx
  · intro hx
    by_contra hn
    have hnone := (mapFind_eq_none_iff m1 x).mpr hn
    cases hf : mapFind m x with
    | none => exact (mapFind_eq_none_iff m x).mp hf hx
    | some r =>
      obtain ⟨r1, hr1, _⟩ := h2 r hf
      rw [hnone] at hr1
      cases hr1

theorem enrichLoop_mem (env : Provider) (g : GpuMap) (m : ProcessMap)
    (e : Nat × ProcessGpuInfo) (h : e ∈ enrichLoop env g m) :
    e.2.processName = GetProcessName env e.1 ∧ e.2.processName ≠ [] ∧
    ∃ v, (e.1, v) ∈ m ∧ e.2.dedicatedBytes = v.dedicatedBytes ∧
      e.2.sharedBytes = v.sharedBytes := by
  induction m with
  | nil => simp [enrichLoop] at h
  | cons a rest ih =>
    obtain ⟨k, v⟩ := a
    by_cases hn : GetProcessName env k = []
    · simp only [enrichLoop, hn, if_true] at h
      obtain ⟨h1, h2, w, hw, h3⟩ := ih h
      exact ⟨h1, h2, w, List.mem_cons_of_mem _ hw, h3⟩
    · simp only [enrichLoop, hn, if_false] at h
      rcases List.mem_cons.mp h with rfl | h
      · exact ⟨rfl, hn, v, List.mem_cons_self _ _, rfl, rfl⟩
      · obtain ⟨h1, h2, w, hw, h3⟩ := ih h
        exact ⟨h1, h2, w, List.mem_cons_of_mem _ hw, h3⟩

theorem enrichLoop_keys (env : Provider) (g : GpuMap) (m : ProcessMap) (x : Nat) :
    x ∈ mapKeys (enrichLoop env g m) ↔ x ∈ mapKeys m ∧ GetProcessName env x ≠ [] := by
  induction m with
  | nil => simp [enrichLoop, mapKeys]
  | cons a rest ih =>
    obtain ⟨k, v⟩ := a
    simp only [mapKeys] at ih
    by_cases hn : GetProcessName env k = []
    · simp only [enrichLoop, hn, if_true, mapKeys, ih, List.map_cons, List.mem_cons]
      constructor
      · rintro ⟨h1, h2⟩
        exact ⟨Or.inr h1, h2⟩
      · rintro ⟨h1 | h1, h2⟩
        · subst h1
          exact absurd hn h2
        · exact ⟨h1, h2⟩
    · simp only [enrichLoop, hn, if_false, mapKeys, List.map_cons, List.mem_cons, ih]
      constructor
      · rintro (h1 | ⟨h1, h2⟩)
        · subst h1
          exact ⟨Or.inl rfl, hn⟩
        · exact ⟨Or.inr h1, h2⟩
      · rintro ⟨h1 | h1, h2⟩
        · exact Or.inl h1
        · exact Or.inr ⟨h1, h2⟩

theorem enrichLoop_sublist (env : Provider) (g : GpuMap) (m : ProcessMap) :
    List.Sublist (mapKeys (enrichLoop env g m)) (mapKeys m) := by
  induction m with
  | nil => simp [enrichLoop, mapKeys]
  | cons a rest ih =>
    obtain ⟨k, v⟩ := a
    simp only [mapKeys] at ih
    by_cases hn : GetProcessName env k = []
    · simp only [enrichLoop, hn, if_true, mapKeys, List.map_cons]
      exact List.Sublist.cons _ ih
    · simp only [enrichLoop, hn, if_false, mapKeys, List.map_cons]
      exact List.Sublist.cons₂ _ ih

theorem enrichLoop_find (env : Provider) (g : GpuMap) (m : ProcessMap) (P : Nat)
    (r : ProcessGpuInfo) (hf : mapFind m P = some r) (hn : GetProcessName env P ≠ []) :
    ∃ r1, mapFind (enrichLoop env g m) P = some r1 ∧
      r1.dedicatedBytes = r.dedicatedBytes ∧ r1.sharedBytes = r.sharedBytes ∧
      r1.processName = GetProcessName env P := by
  induction m with
  | nil => simp [mapFind] at hf
  | cons a rest ih =>
    obtain ⟨k, v⟩ := a
    by_cases hk : P = k
    · subst hk
      simp only [mapFind, if_true, Option.some.injEq] at hf
      subst hf
      refine ⟨{ v with
        processName := GetProcessName env P,
        gpuName := (g.lookup (v.luid1, v.luid2)).getD unknownGpuName }, ?_, rfl, rfl, rfl⟩
      simp [enrichLoop, hn, mapFind]
    · simp only [mapFind, hk, if_false] at hf
      obtain ⟨r1, h1, h2⟩ := ih hf
      refine ⟨r1, ?_, h2⟩
      by_cases hnk : GetProcessName env k = []
      · simpa [enrichLoop, hnk] using h1
      · simpa [enrichLoop, hnk, mapFind, hk] using h1

theorem Update_ok_cases (mon : Monitor) (env : Provider) (b : Bool) (mon1 : Monitor)
    (h : Update mon env = .ok (b, mon1)) :
    (b = false ∧ mon1.processMap = []) ∨
    (b = false ∧ dedicatedLoop env.dedicated.items [] = .ok mon1.processMap) ∨
    (b = true ∧ ∃ m1 m2, dedicatedLoop env.dedicated.items [] = .ok m1 ∧
      sharedLoop env.shared.items m1 = .ok m2 ∧
      mon1.processMap = enrichLoop env (EnumerateGpuLUIDs env.adapters) m2) := by
  unfold Update at h
  simp only [] at h
  split at h
  · cases h
    exact Or.inl ⟨rfl, rfl⟩
  · split at h
    · cases h
      exact Or.inl ⟨rfl, rfl⟩
    · split at h
      · cases h
        exact Or.inl ⟨rfl, rfl⟩
      · split at h
        · cases h
        · rename_i m1 hm1
          split at h
          · cases h
            exact Or.inr (Or.inl ⟨rfl, hm1⟩)
          · split at h
            · cases h
              exact Or.inr (Or.inl ⟨rfl, hm1⟩)
            · split at h
              · cases h
              · rename_i m2 hm2
                cases h
                exact Or.inr (Or.inr ⟨rfl, m1, m2, hm1, hm2, rfl⟩)

theorem enrichLoop_congr (env1 env2 : Provider) (g : GpuMap) (m : ProcessMap)
    (h : env1.imagePath = env2.imagePath) : enrichLoop env1 g m = enrichLoop env2 g m := by
  induction m with
  | nil => rfl
  | cons a rest ih =>
    obtain ⟨k, v⟩ := a
    simp only [enrichLoop, GetProcessName, h, ih]

theorem Update_congr (mon : Monitor) (env1 env2 : Provider)
    (h1 : env1.collectStatus = env2.collectStatus)
    (h2 : env1.dedicated.sizeStatus = env2.dedicated.sizeStatus)
    (h3 : env1.dedicated.fetchStatus = env2.dedicated.fetchStatus)
    (h4 : dedicatedLoop env1.dedicated.items [] = dedicatedLoop env2.dedicated.items [])
    (h5 : env1.shared.sizeStatus = env2.shared.sizeStatus)
    (h6 : env1.shared.fetchStatus = env2.shared.fetchStatus)
    (h7 : ∀ m1, dedicatedLoop env1.dedicated.items [] = .ok m1 →
      sharedLoop env1.shared.items m1 = sharedLoop env2.shared.items m1)
    (h8 : env1.adapters = env2.adapters)
    (h9 : env1.imagePath = env2.imagePath) :
    Update mon env1 = Update mon env2 := by
  cases hd : dedicatedLoop env1.dedicated.items [] with
  | error e =>
    have hd2 := h4.symm.trans hd
    simp only [Update, h1, h2, h3, hd, hd2]
  | ok m1 =>
    have hd2 := h4.symm.trans hd
    have hs := h7 m1 hd
    simp only [Update, h1, h2, h3, hd, hd2, h5, h6, hs, h8,
      fun g m => enrichLoop_congr env1 env2 g m h9]

theorem Update_dedicated_items (mon : Monitor) (env : Provider) (items2 : List CounterItem)
    (h : dedicatedLoop env.dedicated.items [] = dedicatedLoop items2 [] ∨
      ∃ e, dedicatedLoop env.dedicated.items [] = .error e) :
    (∃ e, Update mon env = .error e) ∨
    Update mon env = Update mon (env.withDedicatedItems items2) := by
  rcases h with h | ⟨e, h⟩
  · right
    exact Update_congr mon env (env.withDedicatedItems items2) rfl rfl rfl h rfl rfl
      (fun _ _ => rfl) rfl rfl
  · by_cases c1 : env.collectStatus ≠ ERROR_SUCCESS
    · right
      simp [Update, Provider.withDedicatedItems, c1]
    · by_cases c2 : env.dedicated.sizeStatus ≠ PDH_MORE_DATA
      · right
        simp [Update, Provider.withDedicatedItems, c1, c2]
      · by_cases c3 : env.dedicated.fetchStatus ≠ ERROR_SUCCESS
        · right
          simp [Update, Provider.withDedicatedItems, c1, c2, c3]
        · left
          exact ⟨e, by simp [Update, c1, c2, c3, h]⟩

theorem Update_shared_items (mon : Monitor) (env : Provider) (items2 : List CounterItem)
    (h : ∀ m1, sharedLoop env.shared.items m1 = sharedLoop items2 m1 ∨
      ∃ e, sharedLoop env.shared.items m1 = .error e) :
    (∃ e, Update mon env = .error e) ∨
    Update mon env = Update mon (env.withSharedItems items2) := by
  by_cases c1 : env.collectStatus ≠ ERROR_SUCCESS
  · right
    simp [Update, Provider.withSharedItems, c1]
  · by_cases c2 : env.dedicated.sizeStatus ≠ PDH_MORE_DATA
    · right
      simp [Update, Provider.withSharedItems, c1, c2]
    · by_cases c3 : env.dedicated.fetchStatus ≠ ERROR_SUCCESS
      · right
        simp [Update, Provider.withSharedItems, c1, c2, c3]
      · cases hd : dedicatedLoop env.dedicated.items [] with
        | error e => exact Or.inl ⟨e, by simp [Update, c1, c2, c3, hd]⟩
        | ok m1 =>
          by_cases c4 : env.shared.sizeStatus ≠ PDH_MORE_DATA
          · right
            simp [Update, Provider.withSharedItems, c1, c2, c3, hd, c4]
          · by_cases c5 : env.shared.fetchStatus ≠ ERROR_SUCCESS
            · right
              simp [Update, Provider.withSharedItems, c1, c2, c3, hd, c4, c5]
            · rcases h m1 with h1 | ⟨e, h1⟩
              · right
                refine Update_congr mon env (env.withSharedItems items2) rfl rfl rfl rfl rfl rfl
                  ?_ rfl rfl
                intro m hm
                rw [hd] at hm
                cases hm
                exact h1
              · exact Or.inl ⟨e, by simp [Update, c1, c2, c3, hd, c4, c5, h1]⟩

theorem Update_dedicated_error (mon : Monitor) (env : Provider) (e : ConvError)
    (c1 : env.collectStatus = ERROR_SUCCESS)
    (c2 : env.dedicated.sizeStatus = PDH_MORE_DATA)
    (c3 : env.dedicated.fetchStatus = ERROR_SUCCESS)
    (h : dedicatedLoop env.dedicated.items [] = .error e) :
    Update mon env = .error e := by
  simp [Update, c1, c2, c3, h]

theorem Update_shared_error (mon : Monitor) (env : Provider) (e : ConvError)
    (m1 : ProcessMap)
    (c1 : env.collectStatus = ERROR_SUCCESS)
    (c2 : env.dedicated.sizeStatus = PDH_MORE_DATA)
    (c3 : env.dedicated.fetchStatus = ERROR_SUCCESS)
    (hd : dedicatedLoop env.dedicated.items [] = .ok m1)
    (c4 : env.shared.sizeStatus = PDH_MORE_DATA)
    (c5 : env.shared.fetchStatus = ERROR_SUCCESS)
    (h : sharedLoop env.shared.items m1 = .error e) :
    Update mon env = .error e := by
  simp [Update, c1, c2, c3, hd, c4, c5, h]

/-! ## Parse failures and conversion errors in `Update` -/

theorem samplePid_no_pid (it : CounterItem) (h : kwPid ∉ tokenize it.szName) :
    samplePid it = none := by
  unfold samplePid
  split
  · rcases ParseCounterName_no_pid it.szName h with ⟨e, he⟩ | ⟨info, hi, _⟩
    · simp [he]
    · simp [hi]
  · rfl

/-- C3 (as amended): for every counter name that contains no `pid` token,
`ParseCounterName` on a fresh record never returns success: it returns the
failure flag, leaving pid 0, unless a numeric conversion raises its exception.
In both cases `Update` creates no record for a counter item of that name: the
loops file the item under no pid, and a cycle that is not ended by an exception
gives the result it gives with the item removed from the array. -/
theorem no_pid_token_no_record (name : WString) (h : kwPid ∉ tokenize name) :
    ((∃ e, ParseCounterName name ProcessGpuInfo.fresh = .error e) ∨
      ∃ info, ParseCounterName name ProcessGpuInfo.fresh = .ok (false, info) ∧
        info.pid = 0) ∧
    (∀ it : CounterItem, it.szName = name → samplePid it = none) ∧
    (∀ (mon : Monitor) (env : Provider) (pre post : List CounterItem) (it : CounterItem),
      it.szName = name → env.dedicated.items = pre ++ it :: post →
      (∃ e, Update mon env = .error e) ∨
      Update mon env = Update mon (env.withDedicatedItems (pre ++ post))) ∧
    (∀ (mon : Monitor) (env : Provider) (pre post : List CounterItem) (it : CounterItem),
      it.szName = name → env.shared.items = pre ++ it :: post →
      (∃ e, Update mon env = .error e) ∨
      Update mon env = Update mon (env.withSharedItems (pre ++ post))) := by
  refine ⟨ParseCounterName_no_pid name h, ?_, ?_, ?_⟩
  · intro it hit
    exact samplePid_no_pid it (hit ▸ h)
  · intro mon env pre post it hit hitems
    have hnone := samplePid_no_pid it (hit ▸ h)
    apply Update_dedicated_items
    rw [hitems, dedicatedLoop_append, dedicatedLoop_append]
    cases hpre : dedicatedLoop pre [] with
    | error e => exact Or.inl rfl
    | ok m1 =>
      rcases dedicatedLoop_cons_cases it post m1 with ⟨e, _, _, he⟩ | ⟨_, hstep⟩ | ⟨info, hsome, _⟩
      · exact Or.inr ⟨e, he⟩
      · exact Or.inl hstep
      · rw [hnone] at hsome
        cases hsome
  · intro mon env pre post it hit hitems
    have hnone := samplePid_no_pid it (hit ▸ h)
    apply Update_shared_items
    intro m0
    rw [hitems, sharedLoop_append, sharedLoop_append]
    cases hpre : sharedLoop pre m0 with
    | error e => exact Or.inl rfl
    | ok m1 =>
      rcases sharedLoop_cons_cases it post m1 with
        ⟨e, _, _, he⟩ | ⟨_, hstep⟩ | ⟨P, hsome, _, _⟩ | ⟨P, r, hsome, _, _⟩
      · exact Or.inr ⟨e, he⟩
      · exact Or.inl hstep
      · rw [hnone] at hsome
        cases hsome
      · rw [hnone] at hsome
        cases hsome

/-- C3 (witness): `luid_0x00000000_0x00000003_phys_0` has no `pid` token; the
parser returns the failure flag, and the cycle with that item between two items
of process 5 gives the result of the cycle without it. -/
theorem no_pid_token_no_record_witness :
    kwPid ∉ tokenize exNameNoPid ∧
    ParseCounterName exNameNoPid ProcessGpuInfo.fresh =
      .ok (false, { ProcessGpuInfo.fresh with luid2 := 3 }) ∧
    ((∃ e, Update Monitor.init
        (exProvider [5] ([exItem exNameGpu2 100] ++ exItemOf exNameNoPid 50 ::
          [exItem exNameGpu3 200]) []) = .error e) ∨
      Update Monitor.init
        (exProvider [5] ([exItem exNameGpu2 100] ++ exItemOf exNameNoPid 50 ::
          [exItem exNameGpu3 200]) []) =
      Update Monitor.init
        ((exProvider [5] ([exItem exNameGpu2 100] ++ exItemOf exNameNoPid 50 ::
          [exItem exNameGpu3 200]) []).withDedicatedItems
            ([exItem exNameGpu2 100] ++ [exItem exNameGpu3 200]))) :=
  ⟨by decide, by decide,
   (no_pid_token_no_record exNameNoPid (by decide)).2.2.1 Monitor.init
     (exProvider [5] ([exItem exNameGpu2 100] ++ exItemOf exNameNoPid 50 ::
        [exItem exNameGpu3 200]) [])
     [exItem exNameGpu2 100] [exItem exNameGpu3 200] (exItemOf exNameNoPid 50) rfl rfl⟩

/-- C3 (counterexample): `luid_zz_0x00000003_phys_0` contains no `pid` token, and
`ParseCounterName` does not return the failure flag for it: the hexadecimal
conversion of `zz` raises `invalid_argument`, which also ends `Update`. -/
theorem no_pid_token_may_raise :
    kwPid ∉ tokenize exNameNoPidBad ∧
    ParseCounterName exNameNoPidBad ProcessGpuInfo.fresh = .error .invalid_argument ∧
    (∀ info, ParseCounterName exNameNoPidBad ProcessGpuInfo.fresh ≠ .ok (false, info)) ∧
    Update Monitor.init (exProvider [5] [exItemOf exNameNoPidBad 50] []) =
      .error .invalid_argument := by
  refine ⟨by decide, by decide, ?_, by decide⟩
  intro info hinfo
  have h : ParseCounterName exNameNoPidBad ProcessGpuInfo.fresh = .error .invalid_argument := by
    decide
  rw [h] at hinfo
  cases hinfo

/-- C9 (as amended): for every counter name whose tokens are a sequence of well
formed groups followed by a keyword that has enough tokens after it (one after
`pid` or `phys`, two after `luid`) of which the conversion rejects one,
`ParseCounterName` on a fresh record does not return but raises that conversion
error; and when `Update` reaches an item of that name (the calls before it
succeed, the item has the status `ERROR_SUCCESS`, the items before it raise
nothing), in the dedicated array or in the shared array, the error escapes
`Update`, which yields no snapshot. -/
theorem rejected_number_ends_Update (name : WString) (gs : List Group)
    (bad : List WString) (e : ConvError)
    (htok : tokenize name = groupsTokens gs ++ bad)
    (hwf : ∀ g ∈ gs, g.wellFormed = true)
    (hbad : RejectedHead bad e) :
    ParseCounterName name ProcessGpuInfo.fresh = .error e ∧
    (∀ (mon : Monitor) (env : Provider) (pre post : List CounterItem) (it : CounterItem)
      (m1 : ProcessMap),
      it.szName = name → it.CStatus = ERROR_SUCCESS →
      env.collectStatus = ERROR_SUCCESS →
      env.dedicated.sizeStatus = PDH_MORE_DATA →
      env.dedicated.fetchStatus = ERROR_SUCCESS →
      env.dedicated.items = pre ++ it :: post →
      dedicatedLoop pre [] = .ok m1 →
      Update mon env = .error e) ∧
    (∀ (mon : Monitor) (env : Provider) (pre post : List CounterItem) (it : CounterItem)
      (m1 m2 : ProcessMap),
      it.szName = name → it.CStatus = ERROR_SUCCESS →
      env.collectStatus = ERROR_SUCCESS →
      env.dedicated.sizeStatus = PDH_MORE_DATA →
      env.dedicated.fetchStatus = ERROR_SUCCESS →
      dedicatedLoop env.dedicated.items [] = .ok m1 →
      env.shared.sizeStatus = PDH_MORE_DATA →
      env.shared.fetchStatus = ERROR_SUCCESS →
      env.shared.items = pre ++ it :: post →
      sharedLoop pre m1 = .ok m2 →
      Update mon env = .error e) := by
  have hparse := ParseCounterName_rejected name gs bad e htok hwf hbad
  refine ⟨hparse, ?_, ?_⟩
  · intro mon env pre post it m1 hname hst c1 c2 c3 hitems hpre
    apply Update_dedicated_error mon env e c1 c2 c3
    rw [hitems, dedicatedLoop_append, hpre]
    subst hname
    simp [dedicatedLoop, hst, hparse]
  · intro mon env pre post it m1 m2 hname hst c1 c2 c3 hd c4 c5 hitems hpre
    apply Update_shared_error mon env e m1 c1 c2 c3 hd c4 c5
    rw [hitems, sharedLoop_append, hpre]
    subst hname
    simp [sharedLoop, hst, hparse]

/-- C9 (witness): in `luid_0x00000000_0x00000003_pid_abc_phys_0` the token after
`pid` is rejected; the parser raises `invalid_argument`, and so does the cycle
in which the item follows a good one. -/
theorem rejected_number_ends_Update_witness :
    tokenize exNameBadPid =
      groupsTokens [.luid "0x00000000".toList "0x00000003".toList] ++
        [kwPid, "abc".toList, kwPhys, "0".toList] ∧
    stoul "abc".toList = .error .invalid_argument ∧
    ParseCounterName exNameBadPid ProcessGpuInfo.fresh = .error .invalid_argument ∧
    Update Monitor.init
      (exProvider [5] ([exItem exNameGpu2 100] ++ exItemOf exNameBadPid 50 :: []) [])
      = .error .invalid_argument :=
  ⟨by decide, by decide,
   (rejected_number_ends_Update exNameBadPid
      [.luid "0x00000000".toList "0x00000003".toList]
      [kwPid, "abc".toList, kwPhys, "0".toList] .invalid_argument (by decide) (by decide)
      (RejectedHead.pid _ _ _ (by decide))).1,
   (rejected_number_ends_Update exNameBadPid
      [.luid "0x00000000".toList "0x00000003".toList]
      [kwPid, "abc".toList, kwPhys, "0".toList] .invalid_argument (by decide) (by decide)
      (RejectedHead.pid _ _ _ (by decide))).2.1 Monitor.init
        (exProvider [5] ([exItem exNameGpu2 100] ++ exItemOf exNameBadPid 50 :: []) [])
        [exItem exNameGpu2 100] [] (exItemOf exNameBadPid 50) _
        rfl rfl rfl rfl rfl rfl (by decide : dedicatedLoop [exItem exNameGpu2 100] [] = .ok
          [(5, { ProcessGpuInfo.fresh with pid := 5, luid2 := 2, dedicatedBytes := 100 })])⟩

/-- C9 (counterexample): in `luid_zz` the token `luid` is followed by the
malformed hexadecimal token `zz`, and `ParseCounterName` raises nothing: only
one token follows `luid`, so the group is ignored and the failure flag is
returned; `Update` goes on and completes the cycle. -/
theorem short_luid_group_not_converted :
    tokenize exNameShortLuid = [kwLuid, "zz".toList] ∧
    stoull "zz".toList 16 = .error .invalid_argument ∧
    ParseCounterName exNameShortLuid ProcessGpuInfo.fresh = .ok (false, ProcessGpuInfo.fresh) ∧
    Update Monitor.init (exProvider [5] [exItemOf exNameShortLuid 50] []) =
      .ok (true, Monitor.init) := by
  decide

/-! ## The snapshot `Update` builds -/

theorem toSizeT_of_range (d : Int) (h0 : 0 ≤ d) (h1 : d < 2 ^ 63) : (toSizeT d : Int) = d := by
  unfold toSizeT
  omega

/-- C4 (as amended): when `Update` completes a cycle in which the LAST item
filed under pid `P` in the dedicated array has the value `d`, the last item
filed under `P` in the shared array has the value `s`, and the name of `P`
resolves, the record of `P` in the snapshot holds `d` and `s` converted to
`size_t`; for byte counts in the non-negative range of `LONGLONG` these are `d`
and `s` themselves and the sum used for ranking is `d + s` exactly. -/
theorem Update_merges_last_samples (mon mon1 : Monitor) (env : Provider) (P : Nat)
    (d s : Int)
    (hup : Update mon env = .ok (true, mon1))
    (hd : lastSample env.dedicated.items P = some d)
    (hs : lastSample env.shared.items P = some s)
    (hn : GetProcessName env P ≠ []) :
    ∃ r, mapFind mon1.processMap P = some r ∧
      r.dedicatedBytes = toSizeT d ∧ r.sharedBytes = toSizeT s ∧
      (0 ≤ d → d < 2 ^ 63 → 0 ≤ s → s < 2 ^ 63 →
        (r.dedicatedBytes : Int) = d ∧ (r.sharedBytes : Int) = s ∧
        (combined r : Int) = d + s) := by
  rcases Update_ok_cases mon env true mon1 hup with ⟨hb, _⟩ | ⟨hb, _⟩ | ⟨_, m1, m2, h1, h2, hm⟩
  · cases hb
  · cases hb
  · obtain ⟨r1, hr1, hd1⟩ := (dedicatedLoop_find _ _ _ P h1).1 d hd
    obtain ⟨r2, hr2, hd2, hs2⟩ := (sharedLoop_find _ _ _ P h2).2 r1 hr1
    rw [hs] at hs2
    obtain ⟨r3, hr3, hd3, hs3, _⟩ :=
      enrichLoop_find env (EnumerateGpuLUIDs env.adapters) m2 P r2 hr2 hn
    refine ⟨r3, by rw [hm]; exact hr3, by rw [hd3, hd2, hd1], by rw [hs3, hs2], ?_⟩
    intro d0 d1 s0 s1
    have e1 : (r3.dedicatedBytes : Int) = d := by
      rw [hd3, hd2, hd1]
      exact toSizeT_of_range d d0 d1
    have e2 : (r3.sharedBytes : Int) = s := by
      rw [hs3, hs2]
      exact toSizeT_of_range s s0 s1
    refine ⟨e1, e2, ?_⟩
    unfold combined
    omega

/-- C4 (witness): one dedicated sample of 500,000,000 bytes and one shared sample
of 200,000,000 bytes for process 5 give a record with exactly these counts and
the ranking sum 700,000,000. -/
theorem Update_merges_last_samples_witness :
    Update Monitor.init
      (exProvider [5] [exItem exNameGpu3 500000000] [exItem exNameGpu3 200000000]) =
      .ok (true, exMonitor [(5, { exRecord 500000000 200000000 with
        luid2 := 3, physicalGpu := 1, gpuName := exLargeGpu.Description })]) ∧
    ∃ r, mapFind (exMonitor [(5, { exRecord 500000000 200000000 with
        luid2 := 3, physicalGpu := 1, gpuName := exLargeGpu.Description })]).processMap 5
          = some r ∧
      r.dedicatedBytes = toSizeT 500000000 ∧ r.sharedBytes = toSizeT 200000000 ∧
      ((0 : Int) ≤ 500000000 → (500000000 : Int) < 2 ^ 63 →
        (0 : Int) ≤ 200000000 → (200000000 : Int) < 2 ^ 63 →
        (r.dedicatedBytes : Int) = 500000000 ∧ (r.sharedBytes : Int) = 200000000 ∧
        (combined r : Int) = 500000000 + 200000000) :=
  ⟨by decide,
   Update_merges_last_samples Monitor.init _
     (exProvider [5] [exItem exNameGpu3 500000000] [exItem exNameGpu3 200000000]) 5
     500000000 200000000 (by decide) (by decide) (by decide) (by decide)⟩

/-- C4 (counterexample): the dedicated array has an item of pid 5 with the value
100 (on one adapter) and then an item of pid 5 with the value 200 (on another);
the shared array has an item of pid 5 with the value 7.  Both dedicated items
parse successfully and the name resolves, yet the record of pid 5 holds 200
dedicated bytes, not the 100 of the first item, and its total is 207. -/
theorem Update_keeps_last_item_of_pid :
    samplePid (exItem exNameGpu2 100) = some 5 ∧
    samplePid (exItem exNameGpu3 200) = some 5 ∧
    samplePid (exItem exNameGpu3 7) = some 5 ∧
    GetProcessName
      (exProvider [5] [exItem exNameGpu2 100, exItem exNameGpu3 200] [exItem exNameGpu3 7]) 5
      = exProcessName ∧
    Update Monitor.init
      (exProvider [5] [exItem exNameGpu2 100, exItem exNameGpu3 200] [exItem exNameGpu3 7]) =
      .ok (true, exMonitor [(5, { exRecord 200 7 with
        luid2 := 3, physicalGpu := 1, gpuName := exLargeGpu.Description })]) ∧
    (exRecord 200 7).dedicatedBytes ≠ 100 ∧
    combined (exRecord 200 7) ≠ 100 + 7 := by
  decide

theorem Update_keys (mon mon1 : Monitor) (env : Provider) (b : Bool)
    (h : Update mon env = .ok (b, mon1)) :
    (∀ x ∈ mapKeys mon1.processMap, x ∈ sampledPids env.dedicated.items) ∧
    (mapKeys mon1.processMap).Pairwise (fun a b => a < b) := by
  have hnil : (mapKeys ([] : ProcessMap)).Pairwise (fun a b => a < b) := by simp [mapKeys]
  rcases Update_ok_cases mon env b mon1 h with ⟨_, hm⟩ | ⟨_, h1⟩ | ⟨_, m1, m2, h1, h2, hm⟩
  · rw [hm]
    simp [mapKeys]
  · obtain ⟨k1, k2⟩ := dedicatedLoop_keys _ _ _ h1
    refine ⟨?_, k2 hnil⟩
    intro x hx
    rcases (k1 x).mp hx with hx | hx
    · simp [mapKeys] at hx
    · exact hx
  · obtain ⟨k1, k2⟩ := dedicatedLoop_keys _ _ _ h1
    have k3 := sharedLoop_sorted _ _ _ h2 (k2 hnil)
    rw [hm]
    refine ⟨?_, k3.sublist (enrichLoop_sublist env _ m2)⟩
    intro x hx
    have hx2 := ((enrichLoop_keys env _ m2 x).mp hx).1
    rcases (k1 x).mp ((sharedLoop_keys _ _ _ h2 x).mp hx2) with hx3 | hx3
    · simp [mapKeys] at hx3
    · exact hx3

/-- C5: for every provider, whenever `Update` returns, a pid that is not filed by
the dedicated-usage array (in particular one that occurs in the shared-usage
array only) has no record in the map, and the number of records is at most the
number of distinct pids successfully parsed from the dedicated-usage array. -/
theorem Update_records_only_dedicated_pids (mon mon1 : Monitor) (env : Provider) (b : Bool)
    (h : Update mon env = .ok (b, mon1)) :
    (∀ P, P ∉ sampledPids env.dedicated.items →
      P ∉ mapKeys mon1.processMap ∧ mapFind mon1.processMap P = none) ∧
    mon1.processMap.length ≤ ((sampledPids env.dedicated.items).dedup).length := by
  obtain ⟨hsub, hsorted⟩ := Update_keys mon mon1 env b h
  refine ⟨?_, ?_⟩
  · intro P hP
    have hk : P ∉ mapKeys mon1.processMap := fun hx => hP (hsub P hx)
    exact ⟨hk, (mapFind_eq_none_iff _ P).mpr hk⟩
  · have hnodup : (mapKeys mon1.processMap).Nodup :=
      hsorted.imp (fun hab => Nat.ne_of_lt hab)
    have hsub2 : mapKeys mon1.processMap ⊆ (sampledPids env.dedicated.items).dedup :=
      fun x hx => List.mem_dedup.mpr (hsub x hx)
    have hlen := (List.subperm_of_subset hnodup hsub2).length_le
    simpa [mapKeys] using hlen

/-- C5 (witness): process 5 has a dedicated and a shared sample, process 9 a
shared sample only; both names resolve, and the snapshot has the one record of
process 5. -/
theorem Update_records_only_dedicated_pids_witness :
    Update Monitor.init
      (exProvider [5, 9] [exItem exNameGpu3 100] [exItem exNameOther 50, exItem exNameGpu3 7]) =
      .ok (true, exMonitor [(5, { exRecord 100 7 with
        luid2 := 3, physicalGpu := 1, gpuName := exLargeGpu.Description })]) ∧
    sampledPids [exItem exNameOther 50, exItem exNameGpu3 7] = [9, 5] ∧
    sampledPids [exItem exNameGpu3 100] = [5] ∧
    ((∀ P, P ∉ sampledPids (exProvider [5, 9] [exItem exNameGpu3 100]
        [exItem exNameOther 50, exItem exNameGpu3 7]).dedicated.items →
      P ∉ mapKeys (exMonitor [(5, { exRecord 100 7 with
        luid2 := 3, physicalGpu := 1, gpuName := exLargeGpu.Description })]).processMap ∧
      mapFind (exMonitor [(5, { exRecord 100 7 with
        luid2 := 3, physicalGpu := 1, gpuName := exLargeGpu.Description })]).processMap P
          = none) ∧
    (exMonitor [(5, { exRecord 100 7 with
        luid2 := 3, physicalGpu := 1, gpuName := exLargeGpu.Description })]).processMap.length ≤
      ((sampledPids (exProvider [5, 9] [exItem exNameGpu3 100]
        [exItem exNameOther 50, exItem exNameGpu3 7]).dedicated.items).dedup).length) :=
  ⟨by decide, by decide, by decide,
   Update_records_only_dedicated_pids Monitor.init _
     (exProvider [5, 9] [exItem exNameGpu3 100] [exItem exNameOther 50, exItem exNameGpu3 7])
     true (by decide)⟩

/-- C6: for every provider (counter arrays and name resolution), when `Update`
completes a cycle no record of the snapshot has an empty `processName`: each
record carries the name resolved for its pid, a pid whose name resolves to the
empty string has no record whatever its byte counts, and every pid filed by the
dedicated array whose name is not empty has a record. -/
theorem Update_drops_unnamed_processes (mon mon1 : Monitor) (env : Provider)
    (h : Update mon env = .ok (true, mon1)) :
    (∀ e ∈ mon1.processMap,
      e.2.processName ≠ [] ∧ e.2.processName = GetProcessName env e.1) ∧
    (∀ P, GetProcessName env P = [] → P ∉ mapKeys mon1.processMap) ∧
    (∀ P ∈ sampledPids env.dedicated.items, GetProcessName env P ≠ [] →
      P ∈ mapKeys mon1.processMap) := by
  rcases Update_ok_cases mon env true mon1 h with ⟨hb, _⟩ | ⟨hb, _⟩ | ⟨_, m1, m2, h1, h2, hm⟩
  · cases hb
  · cases hb
  · rw [hm]
    refine ⟨?_, ?_, ?_⟩
    · intro e he
      obtain ⟨k1, k2, _⟩ := enrichLoop_mem env _ m2 e he
      exact ⟨k2, k1⟩
    · intro P hP hx
      exact ((enrichLoop_keys env _ m2 P).mp hx).2 hP
    · intro P hP hname
      apply (enrichLoop_keys env _ m2 P).mpr
      refine ⟨?_, hname⟩
      apply (sharedLoop_keys _ _ _ h2 P).mpr
      exact ((dedicatedLoop_keys _ _ _ h1).1 P).mpr (Or.inr hP)

/-- C6 (witness, scenario D): process 5 has 500,000,000 dedicated and 200,000,000
shared bytes and a name that resolves to the empty string; the cycle completes
and process 5 has no record. -/
theorem Update_drops_unnamed_processes_witness :
    Update Monitor.init
      (exProvider [] [exItem exNameGpu3 500000000] [exItem exNameGpu3 200000000]) =
      .ok (true, Monitor.init) ∧
    GetProcessName
      (exProvider [] [exItem exNameGpu3 500000000] [exItem exNameGpu3 200000000]) 5 = [] ∧
    5 ∉ mapKeys Monitor.init.processMap :=
  ⟨by decide, by decide,
   (Update_drops_unnamed_processes Monitor.init Monitor.init
     (exProvider [] [exItem exNameGpu3 500000000] [exItem exNameGpu3 200000000])
     (by decide)).2.1 5 (by decide)⟩

end GpuVramMonitor
